import Mathlib

/-!
Verification development for the shamgateway fulfillment-and-reconciliation
engine.  The TypeScript sources are shallowly embedded as executable Lean
definitions: decimal amounts are strings over digit characters, JS numbers
are modelled as exact naturals (exact for values below 2 to the 53, with the
JS overflow-to-Infinity boundary modelled explicitly), database tables are
lists of rows, and queue/provider interactions are explicit action values.
-/

instance {ε α : Type} [DecidableEq ε] [DecidableEq α] : DecidableEq (Except ε α)
  | .ok a, .ok b =>
    if h : a = b then isTrue (by rw [h]) else isFalse (fun hh => h (Except.ok.inj hh))
  | .ok _, .error _ => isFalse (fun hh => Except.noConfusion hh)
  | .error _, .ok _ => isFalse (fun hh => Except.noConfusion hh)
  | .error e, .error e2 =>
    if h : e = e2 then isTrue (by rw [h]) else isFalse (fun hh => h (Except.error.inj hh))

/- ===================== JS string primitives ===================== -/

/-- Model of JS String.prototype.toUpperCase restricted to per-character
uppercasing (the only use sites pass ASCII currency codes). -/
def jsToUpper (s : String) : String := String.mk (s.data.map Char.toUpper)

/-- Model of JS String.prototype.trim (whitespace at both ends). -/
def jsTrim (s : String) : String :=
  String.mk (((s.data.dropWhile Char.isWhitespace).reverse.dropWhile Char.isWhitespace).reverse)

/-- Split a character list at every occurrence of the separator, keeping
empty segments, as JS String.prototype.split with a one-character
separator does. -/
def splitOnChar (sep : Char) (l : List Char) : List (List Char) :=
  l.foldr
    (fun ch acc =>
      match acc with
      | h :: t => if ch = sep then [] :: h :: t else (ch :: h) :: t
      | [] => [[ch]])
    [[]]

/- ===================== Decimal digit utilities ===================== -/

/-- Little-endian base-10 digits with explicit fuel, so that the kernel
can evaluate it on concrete inputs (Nat.digits is defined by well-founded
recursion and does not reduce). -/
def decDigitsAux : Nat → Nat → List Nat
  | 0, _ => []
  | fuel + 1, n => if n = 0 then [] else n % 10 :: decDigitsAux fuel (n / 10)

/-- Big-endian base-10 digit list of a natural number, empty for 0. -/
def digitsBE (n : Nat) : List Nat := (decDigitsAux n n).reverse

theorem decDigitsAux_eq_digits (fuel n : Nat) (h : n ≤ fuel) :
    decDigitsAux fuel n = Nat.digits 10 n := by
  induction fuel generalizing n with
  | zero =>
    interval_cases n
    simp [decDigitsAux]
  | succ fuel ih =>
    by_cases hn : n = 0
    · simp [decDigitsAux, hn]
    · rw [decDigitsAux, if_neg hn, Nat.digits_def' (by norm_num) (Nat.pos_of_ne_zero hn)]
      rw [ih (n / 10) ?_]
      calc n / 10 ≤ n / 2 := Nat.div_le_div_left (by norm_num) (by norm_num)
        _ ≤ fuel := by omega

theorem digitsBE_eq (n : Nat) : digitsBE n = (Nat.digits 10 n).reverse := by
  rw [digitsBE, decDigitsAux_eq_digits n n le_rfl]

/-- Decimal digits of a natural number as JS String(n) renders them:
big-endian, no leading zeros, and the single digit 0 for n = 0. -/
def natToDecimalDigits (n : Nat) : List Nat := if n = 0 then [0] else digitsBE n

/-- Numeric value of a big-endian digit list. -/
def valBE (l : List Nat) : Nat := Nat.ofDigits 10 l.reverse

/-- Digit value of a decimal digit character. -/
def charVal (c : Char) : Nat := c.toNat - 48

/-- Character for a decimal digit value below 10. -/
def digitChar (d : Nat) : Char := Char.ofNat (48 + d)

/-- Numeric value of a big-endian list of digit characters. -/
def valBEc (l : List Char) : Nat := valBE (l.map charVal)

/-- Left-pad a big-endian digit list with zeros to length k
(model of JS String.prototype.padStart with pad character 0). -/
def padZeros (k : Nat) (l : List Nat) : List Nat :=
  List.replicate (k - l.length) 0 ++ l

/-- Strip leading zeros of a big-endian digit list, keeping at least one
digit (the canonical form of the numeral). -/
def canonDigits (l : List Nat) : List Nat :=
  match l.dropWhile (· = 0) with
  | [] => [0]
  | r => r

/- ===================== Currency codec (currency.util.ts) ===================== -/

/-- Static per-currency exponent table from currency.util.ts. -/
def EXPONENT_MAP : List (String × Nat) :=
  [("JPY", 0), ("KRW", 0), ("VND", 0), ("XOF", 0), ("XAF", 0), ("XPF", 0),
   ("CLP", 0), ("MGA", 1), ("BHD", 3), ("JOD", 3), ("KWD", 3), ("OMR", 3),
   ("TND", 3), ("IQD", 3)]

/-- Exponent lookup: EXPONENT_MAP[currency.toUpperCase()] with default 2. -/
def exponentFor (currency : String) : Nat :=
  match EXPONENT_MAP.find? (fun p => p.1 = jsToUpper currency) with
  | some p => p.2
  | none => 2

/-- Shape check and split for the regex pattern of one or more digits,
optionally followed by a dot and one or more digits, combined with the
split on the dot performed by toMinorUnits.  Returns (intPart, fracRaw)
where fracRaw is empty exactly when the string has no dot. -/
def decimalShape (l : List Char) : Option (List Char × List Char) :=
  let intPart := l.takeWhile Char.isDigit
  let rest := l.dropWhile Char.isDigit
  if intPart.isEmpty then none
  else if rest = [] then some (intPart, [])
  else if rest.head? = some '.' ∧ rest.tail ≠ [] ∧ rest.tail.all Char.isDigit then
    some (intPart, rest.tail)
  else none

/-- Smallest nonnegative integer that JS Number(...) of an integer numeral
rounds to Infinity: the midpoint above the largest finite double, equal to
2 to the 1024 minus 2 to the 970 (written as a literal so the kernel can
compare against it directly). -/
def jsNumberInfinityBound : Nat := 179769313486231580793728971405303415079934132710037826936173778980444968292764750946649017977587207096330286416692887910946555547851940402630657488671505820681908902000708383676273854845817711531764475730270069855571366959622842914819860834936475292719074168444365510704342711559699508093042880177904174497792

theorem jsNumberInfinityBound_eq : jsNumberInfinityBound = 2 ^ 1024 - 2 ^ 970 := by
  norm_num [jsNumberInfinityBound]

/-- Error cases of toMinorUnits: the regex rejection (message
Invalid amount format) and the Number.isFinite rejection (message
Invalid amount). -/
inductive AmountError where
  | invalidFormat : AmountError
  | invalidAmount : AmountError
deriving DecidableEq, Repr

/-- Model of toMinorUnits from currency.util.ts.  The JS Number of the
normalized digit string is modelled as its exact natural value (exact in
JS below 2 to the 53); the Number.isFinite check is modelled by the exact
overflow boundary for integer numerals. -/
def toMinorUnits (amount : String) (currency : String) : Except AmountError Nat :=
  match decimalShape amount.data with
  | none => .error .invalidFormat
  | some (intPart, fracRaw) =>
    let exp := exponentFor currency
    let frac := (fracRaw ++ List.replicate exp '0').take exp
    let normalized := if exp > 0 then intPart ++ frac else intPart
    let stripped := normalized.dropWhile (· = '0')
    let numeral := if stripped.isEmpty then ['0'] else stripped
    let n := valBEc numeral
    if n < jsNumberInfinityBound then .ok n else .error .invalidAmount

/-- Model of the regex replace of leading zeros followed by a digit
(pattern: start, one or more zeros, one captured digit; replacement: the
captured digit), including the backtracking case where the run of zeros
is itself shortened so that its last zero serves as the captured digit. -/
def replaceLeadZeros (l : List Char) : List Char :=
  let z := (l.takeWhile (· = '0')).length
  if z = 0 then l
  else if (l.drop z).head?.elim false Char.isDigit then l.drop z
  else if 2 ≤ z then l.drop (z - 1) else l

/-- Model of fromMinorUnits from currency.util.ts for a nonnegative
integer minor amount. -/
def fromMinorUnits (minor : Nat) (currency : String) : String :=
  let exp := exponentFor currency
  if exp = 0 then String.mk ((natToDecimalDigits minor).map digitChar)
  else
    let s := padZeros (exp + 1) (natToDecimalDigits minor)
    let i := s.take (s.length - exp)
    let f := s.drop (s.length - exp)
    String.mk (replaceLeadZeros ((i.map digitChar) ++ '.' :: (f.map digitChar)))

/-- Leading-zero normalization of a well-formed decimal string, used to
state the round-trip property: the integer part is put in canonical form
and the fractional part is kept as written. -/
def normalizeAmount (x : String) : Option String :=
  match decimalShape x.data with
  | none => none
  | some (intPart, fracRaw) =>
    let ic := (canonDigits (intPart.map charVal)).map digitChar
    some (String.mk (if fracRaw = [] then ic else ic ++ '.' :: fracRaw))

/- ===================== Digit arithmetic lemmas ===================== -/

theorem ofDigits_replicate_zero (b k : Nat) : Nat.ofDigits b (List.replicate k 0) = 0 := by
  induction k with
  | zero => rfl
  | succ k ih => simp [List.replicate_succ, Nat.ofDigits_cons, ih]

theorem valBE_append (a b : List Nat) :
    valBE (a ++ b) = valBE a * 10 ^ b.length + valBE b := by
  simp only [valBE, List.reverse_append, Nat.ofDigits_append, List.length_reverse]
  ring

theorem valBE_lt (l : List Nat) (h : ∀ d ∈ l, d < 10) : valBE l < 10 ^ l.length := by
  have := Nat.ofDigits_lt_base_pow_length (b := 10) (l := l.reverse) (by norm_num)
    (fun x hx => h x (List.mem_reverse.mp hx))
  simpa [valBE] using this

theorem valBE_replicate (k : Nat) : valBE (List.replicate k 0) = 0 := by
  simp [valBE, List.reverse_replicate, ofDigits_replicate_zero]

theorem valBE_replicate_append (k : Nat) (l : List Nat) :
    valBE (List.replicate k 0 ++ l) = valBE l := by
  rw [valBE_append, valBE_replicate]
  ring

theorem valBE_natToDecimalDigits (m : Nat) : valBE (natToDecimalDigits m) = m := by
  by_cases hm : m = 0
  · simp [natToDecimalDigits, hm, valBE, Nat.ofDigits]
  · simp [natToDecimalDigits, hm, valBE, digitsBE_eq, Nat.ofDigits_digits]

theorem natToDecimalDigits_lt10 (m : Nat) : ∀ d ∈ natToDecimalDigits m, d < 10 := by
  intro d hd
  by_cases hm : m = 0
  · simp [natToDecimalDigits, hm] at hd
    omega
  · simp only [natToDecimalDigits, hm, if_false, digitsBE_eq, List.mem_reverse] at hd
    exact Nat.digits_lt_base (by norm_num) hd

theorem natToDecimalDigits_ne_nil (m : Nat) : natToDecimalDigits m ≠ [] := by
  by_cases hm : m = 0
  · simp [natToDecimalDigits, hm]
  · simp [natToDecimalDigits, hm, digitsBE_eq, Nat.digits_ne_nil_iff_ne_zero]

theorem natToDecimalDigits_head (m : Nat) (hm : m ≠ 0) :
    ∃ d t, natToDecimalDigits m = d :: t ∧ d ≠ 0 := by
  have hnil : Nat.digits 10 m ≠ [] := Nat.digits_ne_nil_iff_ne_zero.mpr hm
  have hlast := Nat.getLast_digit_ne_zero 10 hm
  have hhead : (Nat.digits 10 m).reverse.head? = some ((Nat.digits 10 m).getLast hnil) := by
    rw [List.head?_reverse, List.getLast?_eq_getLast_of_ne_nil hnil]
  rcases hrev : (Nat.digits 10 m).reverse with _ | ⟨d, t⟩
  · exact absurd (by simpa using congrArg List.reverse hrev) hnil
  · refine ⟨d, t, ?_, ?_⟩
    · simp [natToDecimalDigits, hm, digitsBE_eq, hrev]
    · rw [hrev] at hhead
      simp only [List.head?_cons, Option.some.injEq] at hhead
      rw [hhead]
      exact hlast

/-- Decomposition of a digit list into its leading zeros and its
zero-stripped remainder. -/
theorem replicate_append_dropWhile (l : List Nat) :
    l = List.replicate (l.takeWhile (· = 0)).length 0 ++ l.dropWhile (· = 0) := by
  conv_lhs => rw [← List.takeWhile_append_dropWhile (p := fun d => decide (d = 0)) (l := l)]
  congr 1
  refine List.eq_replicate_length.mpr ?_
  intro b hb
  simpa using List.mem_takeWhile_imp hb

theorem dropWhile_zero_head (l : List Nat) (d : Nat) (t : List Nat)
    (h : l.dropWhile (· = 0) = d :: t) : d ≠ 0 := by
  induction l with
  | nil => simp at h
  | cons a l ih =>
    rw [List.dropWhile_cons] at h
    by_cases ha : a = 0
    · rw [if_pos (by simpa using ha)] at h
      exact ih h
    · rw [if_neg (by simpa using ha)] at h
      cases h
      exact ha

theorem canonDigits_val (l : List Nat) : valBE (canonDigits l) = valBE l := by
  have hdec := replicate_append_dropWhile l
  rcases hr : l.dropWhile (· = 0) with _ | ⟨d, t⟩ <;> rw [hr] at hdec
  · simp only [canonDigits, hr]
    conv_rhs => rw [hdec]
    rw [List.append_nil, valBE_replicate]
    rfl
  · simp only [canonDigits, hr]
    conv_rhs => rw [hdec]
    rw [valBE_replicate_append]

theorem natToDecimalDigits_valBE (l : List Nat) (hl : ∀ d ∈ l, d < 10) :
    natToDecimalDigits (valBE l) = canonDigits l := by
  have hdec := replicate_append_dropWhile l
  rcases hr : l.dropWhile (· = 0) with _ | ⟨d, t⟩ <;> rw [hr] at hdec
  · have hval : valBE l = 0 := by
      conv_lhs => rw [hdec]
      rw [List.append_nil, valBE_replicate]
    rw [hval, canonDigits, hr]
    rfl
  · have hval : valBE l = valBE (d :: t) := by
      conv_lhs => rw [hdec]
      rw [valBE_replicate_append]
    have hmem : ∀ x ∈ d :: t, x < 10 := by
      intro x hx
      exact hl x ((List.dropWhile_sublist (fun d => decide (d = 0))).subset (hr ▸ hx))
    have hd0 : d ≠ 0 := dropWhile_zero_head l d t hr
    have hglast : ∀ h : (d :: t).reverse ≠ [], ((d :: t).reverse).getLast h ≠ 0 := by
      intro h
      have h2 := List.getLast?_eq_getLast_of_ne_nil h
      rw [List.getLast?_reverse] at h2
      simp only [List.head?_cons, Option.some.injEq] at h2
      rw [← h2]
      exact hd0
    have hdig : Nat.digits 10 (valBE (d :: t)) = (d :: t).reverse := by
      rw [valBE]
      exact Nat.digits_ofDigits 10 (by norm_num) _
        (fun x hx => hmem x (List.mem_reverse.mp hx)) hglast
    have hne : valBE (d :: t) ≠ 0 := by
      intro h0
      have : Nat.digits 10 0 = (d :: t).reverse := h0 ▸ hdig
      simp at this
    rw [hval, natToDecimalDigits, if_neg hne, digitsBE_eq, hdig, List.reverse_reverse,
      canonDigits, hr]

theorem padZeros_of_le (k : Nat) (l : List Nat) (h : k ≤ l.length) : padZeros k l = l := by
  simp [padZeros, Nat.sub_eq_zero_of_le h]

theorem padZeros_length (k : Nat) (l : List Nat) (h : l.length ≤ k) :
    (padZeros k l).length = k := by
  simp only [padZeros, List.length_append, List.length_replicate]
  omega

theorem padZeros_zero_digit (k : Nat) (hk : 1 ≤ k) : padZeros k [0] = List.replicate k 0 := by
  have h1 : k = (k - 1) + 1 := by omega
  rw [padZeros]
  conv_rhs => rw [h1, List.replicate_succ']
  norm_num

theorem padZeros_canon (l : List Nat) (k : Nat) (hlen : l.length = k) (hk : 1 ≤ k) :
    padZeros k (canonDigits l) = l := by
  have hdec := replicate_append_dropWhile l
  rcases hr : l.dropWhile (· = 0) with _ | ⟨d, t⟩ <;> rw [hr] at hdec
  · have hlrep : l = List.replicate (l.takeWhile (· = 0)).length 0 := by simpa using hdec
    have hzlen : (l.takeWhile (· = 0)).length = k := by
      rw [← hlen]
      conv_rhs => rw [hlrep]
      simp
    simp only [canonDigits, hr]
    rw [padZeros_zero_digit k hk]
    rw [hlrep, hzlen]
  · simp only [canonDigits, hr]
    rw [padZeros]
    have hlen2 : (l.takeWhile (· = 0)).length + (d :: t).length = k := by
      rw [← hlen]
      conv_rhs => rw [hdec]
      simp
    have hke : k - (d :: t).length = (l.takeWhile (· = 0)).length := by omega
    rw [hke]
    exact hdec.symm

theorem digits_length_le (m k : Nat) (h : m < 10 ^ k) : (Nat.digits 10 m).length ≤ k := by
  by_cases hm : m = 0
  · simp [hm]
  · rw [Nat.digits_len 10 m (by norm_num) hm]
    have : Nat.log 10 m < k := (Nat.lt_pow_iff_log_lt (by norm_num) hm).mp h
    omega

theorem natToDecimalDigits_length_le (m k : Nat) (hk : 1 ≤ k) (h : m < 10 ^ k) :
    (natToDecimalDigits m).length ≤ k := by
  by_cases hm : m = 0
  · simpa [natToDecimalDigits, hm] using hk
  · simp only [natToDecimalDigits, hm, if_false, digitsBE_eq, List.length_reverse]
    exact digits_length_le m k h

/-- Key splitting identity behind fromMinorUnits: padding the decimal
numeral of m to exp + 1 digits and cutting off the last exp digits yields
the numeral of the quotient followed by the exp-digit numeral of the
remainder. -/
theorem padZeros_decomp (m exp : Nat) (hexp : 1 ≤ exp) :
    padZeros (exp + 1) (natToDecimalDigits m) =
      natToDecimalDigits (m / 10 ^ exp) ++
        padZeros exp (natToDecimalDigits (m % 10 ^ exp)) := by
  by_cases hlt : m < 10 ^ exp
  · have hq : m / 10 ^ exp = 0 := Nat.div_eq_of_lt hlt
    have hrm : m % 10 ^ exp = m := Nat.mod_eq_of_lt hlt
    have hA : (natToDecimalDigits m).length ≤ exp := natToDecimalDigits_length_le m exp hexp hlt
    rw [hq, hrm]
    show padZeros (exp + 1) (natToDecimalDigits m) = [0] ++ padZeros exp (natToDecimalDigits m)
    simp only [padZeros]
    rw [show exp + 1 - (natToDecimalDigits m).length =
      (exp - (natToDecimalDigits m).length) + 1 by omega]
    rw [List.replicate_succ]
    rfl
  · push_neg at hlt
    set q := m / 10 ^ exp with hq
    set r := m % 10 ^ exp with hr
    have hqpos : 1 ≤ q := (Nat.one_le_div_iff (Nat.pos_pow_of_pos exp (by norm_num))).mpr hlt
    have hrlt : r < 10 ^ exp := Nat.mod_lt m (Nat.pos_pow_of_pos exp (by norm_num))
    have hm0 : m ≠ 0 := by
      intro h0
      rw [h0] at hlt
      have hp : (0:Nat) < 10 ^ exp := Nat.pos_pow_of_pos exp (by norm_num)
      omega
    have hq0 : q ≠ 0 := by omega
    have hrlen : (Nat.digits 10 r).length ≤ exp := digits_length_le r exp hrlt
    set k := exp - (Nat.digits 10 r).length with hk
    have hsum : m = r + 10 ^ ((Nat.digits 10 r).length + k) * q := by
      rw [show (Nat.digits 10 r).length + k = exp by omega]
      rw [hr, hq]
      rw [Nat.mod_add_div m (10 ^ exp)]
    have hdig : Nat.digits 10 r ++ List.replicate k 0 ++ Nat.digits 10 q = Nat.digits 10 m := by
      rw [Nat.digits_append_zeroes_append_digits (by norm_num) (by omega)]
      rw [← hsum]
    have hbe : natToDecimalDigits m =
        (Nat.digits 10 q).reverse ++ (List.replicate k 0 ++ (Nat.digits 10 r).reverse) := by
      rw [natToDecimalDigits, if_neg hm0, digitsBE_eq, ← hdig]
      simp [List.reverse_append, List.reverse_replicate]
    have hqlen : 1 ≤ (Nat.digits 10 q).length := by
      have hne : Nat.digits 10 q ≠ [] := Nat.digits_ne_nil_iff_ne_zero.mpr hq0
      exact List.length_pos.mpr hne
    have hmlen : exp + 1 ≤ (natToDecimalDigits m).length := by
      rw [hbe]
      simp only [List.length_append, List.length_reverse, List.length_replicate]
      omega
    rw [padZeros_of_le _ _ hmlen, hbe]
    congr 1
    · rw [natToDecimalDigits, if_neg hq0, digitsBE_eq]
    · by_cases hr0 : r = 0
      · have hrd : Nat.digits 10 r = [] := by simp [hr0]
        have hkexp : k = exp := by rw [hk, hrd]; simp
        rw [hrd, hkexp, hr0]
        rw [show natToDecimalDigits 0 = [0] from rfl, padZeros_zero_digit exp hexp]
        simp
      · rw [natToDecimalDigits, if_neg hr0, digitsBE_eq, padZeros]
        have hlen3 : exp - ((Nat.digits 10 r).reverse).length = k := by
          simp only [List.length_reverse]
        rw [hlen3]

/- ===================== Digit character lemmas ===================== -/

theorem digitChar_isDigit (d : Nat) (h : d < 10) : (digitChar d).isDigit = true := by
  interval_cases d <;> decide

theorem digitChar_ne_dot (d : Nat) (h : d < 10) : digitChar d ≠ '.' := by
  interval_cases d <;> decide

theorem digitChar_ne_zero (d : Nat) (h : d < 10) (h0 : d ≠ 0) : digitChar d ≠ '0' := by
  interval_cases d
  · exact absurd rfl h0
  all_goals decide

theorem charVal_digitChar (d : Nat) (h : d < 10) : charVal (digitChar d) = d := by
  interval_cases d <;> decide

theorem isDigit_toNat (c : Char) (h : c.isDigit = true) : 48 ≤ c.toNat ∧ c.toNat ≤ 57 := by
  simp only [Char.isDigit, Bool.and_eq_true, decide_eq_true_eq] at h
  obtain ⟨h1, h2⟩ := h
  exact ⟨h1, h2⟩

theorem charVal_lt10 (c : Char) (h : c.isDigit = true) : charVal c < 10 := by
  obtain ⟨h1, h2⟩ := isDigit_toNat c h
  rw [charVal]
  omega

theorem digitChar_charVal (c : Char) (h : c.isDigit = true) : digitChar (charVal c) = c := by
  obtain ⟨h1, _⟩ := isDigit_toNat c h
  rw [digitChar, charVal, show 48 + (c.toNat - 48) = c.toNat by omega]
  exact Char.ofNat_toNat c

theorem map_digitChar_charVal (l : List Char) (h : ∀ c ∈ l, c.isDigit = true) :
    (l.map charVal).map digitChar = l := by
  induction l with
  | nil => rfl
  | cons c t ih =>
    simp only [List.map_cons, List.cons.injEq]
    exact ⟨digitChar_charVal c (h c (List.mem_cons_self c t)),
      ih (fun x hx => h x (List.mem_cons_of_mem c hx))⟩

theorem map_charVal_lt10 (l : List Char) (h : ∀ c ∈ l, c.isDigit = true) :
    ∀ d ∈ l.map charVal, d < 10 := by
  intro d hd
  obtain ⟨c, hc, rfl⟩ := List.mem_map.mp hd
  exact charVal_lt10 c (h c hc)

/- ===================== Parsing and rendering lemmas ===================== -/

theorem takeWhile_digits_dot (a r : List Char) (ha : ∀ c ∈ a, c.isDigit = true) :
    (a ++ '.' :: r).takeWhile Char.isDigit = a ∧
      (a ++ '.' :: r).dropWhile Char.isDigit = '.' :: r := by
  induction a with
  | nil => exact ⟨by simp [List.takeWhile_cons], by simp [List.dropWhile_cons]⟩
  | cons c t ih =>
    have hc : c.isDigit = true := ha c (List.mem_cons_self c t)
    have iht := ih (fun x hx => ha x (List.mem_cons_of_mem c hx))
    constructor
    · rw [List.cons_append, List.takeWhile_cons, hc, if_pos rfl, iht.1]
    · rw [List.cons_append, List.dropWhile_cons, hc, if_pos rfl, iht.2]

theorem decimalShape_render_dot (a r : List Char) (ha : a ≠ [])
    (hda : ∀ c ∈ a, c.isDigit = true) (hr : r ≠ []) (hdr : ∀ c ∈ r, c.isDigit = true) :
    decimalShape (a ++ '.' :: r) = some (a, r) := by
  obtain ⟨ht, hd⟩ := takeWhile_digits_dot a r hda
  rw [decimalShape]
  simp only [ht, hd]
  rw [if_neg (by simpa [List.isEmpty_iff] using ha)]
  rw [if_neg (by simp)]
  rw [if_pos (by exact ⟨by simp, by simpa using hr,
    by simpa using List.all_eq_true.mpr (fun c hc => hdr c hc)⟩)]
  simp

theorem decimalShape_render_int (a : List Char) (ha : a ≠ [])
    (hda : ∀ c ∈ a, c.isDigit = true) :
    decimalShape a = some (a, []) := by
  have ht : a.takeWhile Char.isDigit = a := List.takeWhile_eq_self_iff.mpr hda
  have hd : a.dropWhile Char.isDigit = [] := List.dropWhile_eq_nil_iff.mpr (fun c hc => hda c hc)
  rw [decimalShape]
  simp only [ht, hd]
  rw [if_neg (by simpa [List.isEmpty_iff] using ha)]
  simp

theorem decimalShape_sound (l I F : List Char) (hp : decimalShape l = some (I, F)) :
    I ≠ [] ∧ (∀ c ∈ I, c.isDigit = true) ∧ (∀ c ∈ F, c.isDigit = true) := by
  rw [decimalShape] at hp
  by_cases hI : (l.takeWhile Char.isDigit).isEmpty
  · rw [if_pos hI] at hp
    exact absurd hp (by simp)
  · rw [if_neg hI] at hp
    have hImem : ∀ c ∈ l.takeWhile Char.isDigit, c.isDigit = true :=
      fun c hc => List.mem_takeWhile_imp hc
    have hIne : l.takeWhile Char.isDigit ≠ [] := by
      simpa [List.isEmpty_iff] using hI
    by_cases hrest : l.dropWhile Char.isDigit = []
    · rw [if_pos hrest] at hp
      simp only [Option.some.injEq, Prod.mk.injEq] at hp
      obtain ⟨hI2, hF2⟩ := hp
      refine ⟨hI2 ▸ hIne, hI2 ▸ hImem, ?_⟩
      rw [← hF2]
      simp
    · rw [if_neg hrest] at hp
      by_cases hcond : (l.dropWhile Char.isDigit).head? = some '.' ∧
          (l.dropWhile Char.isDigit).tail ≠ [] ∧
          ((l.dropWhile Char.isDigit).tail).all Char.isDigit
      · rw [if_pos hcond] at hp
        simp only [Option.some.injEq, Prod.mk.injEq] at hp
        obtain ⟨hI2, hF2⟩ := hp
        refine ⟨hI2 ▸ hIne, hI2 ▸ hImem, ?_⟩
        rw [← hF2]
        exact fun x hx => List.all_eq_true.mp hcond.2.2 x hx
      · rw [if_neg hcond] at hp
        exact absurd hp (by simp)

theorem valBEc_strip (l : List Char) :
    valBEc (if (l.dropWhile (· = '0')).isEmpty then ['0'] else l.dropWhile (· = '0')) =
      valBEc l := by
  have hdec : l = l.takeWhile (· = '0') ++ l.dropWhile (· = '0') :=
    (List.takeWhile_append_dropWhile (p := fun ch => decide (ch = '0')) (l := l)).symm
  have hrep : (l.takeWhile (· = '0')).map charVal =
      List.replicate (l.takeWhile (· = '0')).length 0 := by
    rw [← List.length_map (l.takeWhile (· = '0')) charVal]
    refine List.eq_replicate_length.mpr ?_
    intro b hb
    obtain ⟨x, hx, rfl⟩ := List.mem_map.mp hb
    have : x = '0' := by simpa using List.mem_takeWhile_imp hx
    rw [this]
    rfl
  by_cases he : (l.dropWhile (· = '0')).isEmpty
  · rw [if_pos he]
    have hdw : l.dropWhile (· = '0') = [] := by simpa [List.isEmpty_iff] using he
    have hval : valBEc l = 0 := by
      conv_lhs => rw [hdec]
      rw [hdw, List.append_nil, valBEc, hrep, valBE_replicate]
    rw [hval]
    rfl
  · rw [if_neg he]
    conv_rhs => rw [hdec]
    rw [valBEc, valBEc, List.map_append, hrep, valBE_replicate_append]

theorem valBEc_append (a b : List Char) :
    valBEc (a ++ b) = valBEc a * 10 ^ b.length + valBEc b := by
  rw [valBEc, List.map_append, valBE_append, List.length_map]
  rfl

/-- toMinorUnits succeeds on a well-formed amount whose fractional part
has exactly the currency exponent digits, and returns the value of the
concatenated digit string. -/
theorem toMinorUnits_ok (x c : String) (I F : List Char)
    (hp : decimalShape x.data = some (I, F))
    (hf : F.length = exponentFor c)
    (hb : valBEc (I ++ F) < jsNumberInfinityBound) :
    toMinorUnits x c = .ok (valBEc (I ++ F)) := by
  have hfrac : (F ++ List.replicate (exponentFor c) '0').take (exponentFor c) = F :=
    List.take_left' hf
  simp only [toMinorUnits, hp]
  by_cases he : exponentFor c > 0
  · simp only [he, if_true, hfrac]
    rw [valBEc_strip (I ++ F), if_pos hb]
  · have hF : F = [] := List.length_eq_zero.mp (by omega)
    subst hF
    rw [List.append_nil] at hb ⊢
    simp only [he, if_false]
    rw [valBEc_strip I, if_pos hb]

/-- replaceLeadZeros does not change the rendering of a canonical decimal
numeral followed by a dot. -/
theorem replaceLeadZeros_noop (n : Nat) (rest : List Char) :
    replaceLeadZeros ((natToDecimalDigits n).map digitChar ++ '.' :: rest) =
      (natToDecimalDigits n).map digitChar ++ '.' :: rest := by
  by_cases hn : n = 0
  · subst hn
    show replaceLeadZeros ('0' :: '.' :: rest) = '0' :: '.' :: rest
    rw [replaceLeadZeros]
    simp [List.takeWhile_cons, List.dropWhile_cons]
  · obtain ⟨d, t, hdt, hd0⟩ := natToDecimalDigits_head n hn
    have hd10 : d < 10 := natToDecimalDigits_lt10 n d (hdt ▸ List.mem_cons_self d t)
    have hne : digitChar d ≠ '0' := digitChar_ne_zero d hd10 hd0
    rw [hdt]
    show replaceLeadZeros (digitChar d :: (t.map digitChar ++ '.' :: rest)) = _
    rw [replaceLeadZeros]
    simp [List.takeWhile_cons, hne]

/-- fromMinorUnits for a currency with positive exponent renders the
quotient digits, a dot, and the exponent-padded remainder digits. -/
theorem fromMinorUnits_split (m : Nat) (c : String) (he : 1 ≤ exponentFor c) :
    fromMinorUnits m c =
      String.mk (((natToDecimalDigits (m / 10 ^ exponentFor c)).map digitChar) ++
        '.' :: ((padZeros (exponentFor c) (natToDecimalDigits (m % 10 ^ exponentFor c))).map
          digitChar)) := by
  have hpos : 0 < 10 ^ exponentFor c := Nat.pos_pow_of_pos _ (by norm_num)
  have hYlen : (padZeros (exponentFor c) (natToDecimalDigits (m % 10 ^ exponentFor c))).length =
      exponentFor c :=
    padZeros_length _ _ (natToDecimalDigits_length_le _ _ he (Nat.mod_lt m hpos))
  simp only [fromMinorUnits]
  rw [if_neg (by omega : ¬ exponentFor c = 0)]
  rw [padZeros_decomp m (exponentFor c) he]
  set X := natToDecimalDigits (m / 10 ^ exponentFor c) with hX
  set Y := padZeros (exponentFor c) (natToDecimalDigits (m % 10 ^ exponentFor c)) with hY
  have hlen : (X ++ Y).length - exponentFor c = X.length := by
    rw [List.length_append, hYlen]
    omega
  rw [hlen, List.take_left, List.drop_left]
  rw [replaceLeadZeros_noop]

/-- Round trip from minor units back through the parser: re-parsing the
rendered amount returns the original minor amount. -/
theorem toMinorUnits_fromMinorUnits (m : Nat) (c : String) (hm : m < jsNumberInfinityBound) :
    toMinorUnits (fromMinorUnits m c) c = .ok m := by
  by_cases he : 1 ≤ exponentFor c
  · have hpos : 0 < 10 ^ exponentFor c := Nat.pos_pow_of_pos _ (by norm_num)
    rw [fromMinorUnits_split m c he]
    set q := m / 10 ^ exponentFor c with hq
    set r := m % 10 ^ exponentFor c with hr
    have hYlen : (padZeros (exponentFor c) (natToDecimalDigits r)).length = exponentFor c :=
      padZeros_length _ _ (natToDecimalDigits_length_le _ _ he (Nat.mod_lt m hpos))
    have hXd : ∀ ch ∈ (natToDecimalDigits q).map digitChar, ch.isDigit = true := by
      intro ch hch
      obtain ⟨d, hd, rfl⟩ := List.mem_map.mp hch
      exact digitChar_isDigit d (natToDecimalDigits_lt10 q d hd)
    have hpad10 : ∀ d ∈ padZeros (exponentFor c) (natToDecimalDigits r), d < 10 := by
      intro d hd
      rcases List.mem_append.mp hd with h | h
      · have : d = 0 := List.eq_of_mem_replicate h
        omega
      · exact natToDecimalDigits_lt10 r d h
    have hYd : ∀ ch ∈ (padZeros (exponentFor c) (natToDecimalDigits r)).map digitChar,
        ch.isDigit = true := by
      intro ch hch
      obtain ⟨d, hd, rfl⟩ := List.mem_map.mp hch
      exact digitChar_isDigit d (hpad10 d hd)
    have hXne : (natToDecimalDigits q).map digitChar ≠ [] := by
      simpa using natToDecimalDigits_ne_nil q
    have hYne : (padZeros (exponentFor c) (natToDecimalDigits r)).map digitChar ≠ [] := by
      intro hcon
      have := congrArg List.length hcon
      simp only [List.length_map, hYlen, List.length_nil] at this
      omega
    have hparse := decimalShape_render_dot _ _ hXne hXd hYne hYd
    have hval : valBEc ((natToDecimalDigits q).map digitChar ++
        (padZeros (exponentFor c) (natToDecimalDigits r)).map digitChar) = m := by
      rw [valBEc_append]
      have h1 : valBEc ((natToDecimalDigits q).map digitChar) = q := by
        rw [valBEc, List.map_map]
        have : (natToDecimalDigits q).map (charVal ∘ digitChar) = natToDecimalDigits q := by
          refine List.map_congr_left ?_ |>.trans (List.map_id _)
          intro d hd
          exact charVal_digitChar d (natToDecimalDigits_lt10 q d hd)
        rw [this, valBE_natToDecimalDigits]
      have h2 : valBEc ((padZeros (exponentFor c) (natToDecimalDigits r)).map digitChar) = r := by
        rw [valBEc, List.map_map]
        have : (padZeros (exponentFor c) (natToDecimalDigits r)).map (charVal ∘ digitChar) =
            padZeros (exponentFor c) (natToDecimalDigits r) := by
          refine List.map_congr_left ?_ |>.trans (List.map_id _)
          intro d hd
          exact charVal_digitChar d (hpad10 d hd)
        rw [this, padZeros, valBE_replicate_append, valBE_natToDecimalDigits]
      rw [h1, h2, List.length_map, hYlen]
      rw [hq, hr, Nat.mul_comm]
      exact Nat.div_add_mod m (10 ^ exponentFor c)
    have := toMinorUnits_ok (String.mk ((natToDecimalDigits q).map digitChar ++
        '.' :: (padZeros (exponentFor c) (natToDecimalDigits r)).map digitChar)) c
        ((natToDecimalDigits q).map digitChar)
        ((padZeros (exponentFor c) (natToDecimalDigits r)).map digitChar)
        (by exact hparse) (by simp [hYlen]) (by rw [hval]; exact hm)
    rw [this, hval]
  · have he0 : exponentFor c = 0 := by omega
    have hXd : ∀ ch ∈ (natToDecimalDigits m).map digitChar, ch.isDigit = true := by
      intro ch hch
      obtain ⟨d, hd, rfl⟩ := List.mem_map.mp hch
      exact digitChar_isDigit d (natToDecimalDigits_lt10 m d hd)
    have hXne : (natToDecimalDigits m).map digitChar ≠ [] := by
      simpa using natToDecimalDigits_ne_nil m
    have hval : valBEc ((natToDecimalDigits m).map digitChar) = m := by
      rw [valBEc, List.map_map]
      have : (natToDecimalDigits m).map (charVal ∘ digitChar) = natToDecimalDigits m := by
        refine List.map_congr_left ?_ |>.trans (List.map_id _)
        intro d hd
        exact charVal_digitChar d (natToDecimalDigits_lt10 m d hd)
      rw [this, valBE_natToDecimalDigits]
    have hparse := decimalShape_render_int _ hXne hXd
    rw [fromMinorUnits, if_pos he0]
    have := toMinorUnits_ok (String.mk ((natToDecimalDigits m).map digitChar)) c
        ((natToDecimalDigits m).map digitChar) [] (by exact hparse) (by simp [he0])
        (by rw [List.append_nil, hval]; exact hm)
    rw [this, List.append_nil, hval]

/- ===================== C1: minor-unit round trip ===================== -/

theorem two_pow_53_lt_bound : 2 ^ 53 < jsNumberInfinityBound := by
  have h1 : (2:Nat) ^ 53 < 2 ^ 970 := Nat.pow_lt_pow_right (by norm_num) (by norm_num)
  have h2 : (2:Nat) ^ 971 ≤ 2 ^ 1024 := Nat.pow_le_pow_right (by norm_num) (by norm_num)
  have h3 : (2:Nat) ^ 971 = 2 * 2 ^ 970 := by ring
  rw [jsNumberInfinityBound_eq]
  omega

/-- C1 (amended): for a decimal string x whose fractional part has exactly
the currency exponent digits (no fractional part for exponent 0) and whose
digit value stays below 2 to the 53 (the JS exact-integer range),
fromMinorUnits inverts toMinorUnits up to leading-zero normalization. -/
theorem C1_minor_units_roundtrip (x c : String) (I F : List Char)
    (hp : decimalShape x.data = some (I, F))
    (hf : F.length = exponentFor c)
    (hm : valBEc (I ++ F) < 2 ^ 53) :
    toMinorUnits x c = .ok (valBEc (I ++ F)) ∧
      normalizeAmount x = some (fromMinorUnits (valBEc (I ++ F)) c) := by
  have hbound : valBEc (I ++ F) < jsNumberInfinityBound :=
    Nat.lt_trans hm two_pow_53_lt_bound
  obtain ⟨hIne, hId, hFd⟩ := decimalShape_sound x.data I F hp
  have hI10 : ∀ d ∈ I.map charVal, d < 10 := map_charVal_lt10 I hId
  have hF10 : ∀ d ∈ F.map charVal, d < 10 := map_charVal_lt10 F hFd
  refine ⟨toMinorUnits_ok x c I F hp hf hbound, ?_⟩
  by_cases he : 1 ≤ exponentFor c
  · have hFlen : (F.map charVal).length = exponentFor c := by
      rw [List.length_map]
      exact hf
    have hFlt : valBEc F < 10 ^ exponentFor c := by
      have := valBE_lt (F.map charVal) hF10
      rwa [hFlen] at this
    have hm_eq : valBEc (I ++ F) = valBEc F + 10 ^ exponentFor c * valBEc I := by
      rw [valBEc_append, hf]
      ring
    have hdiv : valBEc (I ++ F) / 10 ^ exponentFor c = valBEc I := by
      rw [hm_eq, Nat.add_mul_div_left _ _ (Nat.pos_pow_of_pos _ (by norm_num)),
        Nat.div_eq_of_lt hFlt, Nat.zero_add]
    have hmod : valBEc (I ++ F) % 10 ^ exponentFor c = valBEc F := by
      rw [hm_eq, Nat.add_mul_mod_self_left, Nat.mod_eq_of_lt hFlt]
    rw [fromMinorUnits_split _ c he, hdiv, hmod]
    have h1 : natToDecimalDigits (valBEc I) = canonDigits (I.map charVal) :=
      natToDecimalDigits_valBE (I.map charVal) hI10
    have h2 : padZeros (exponentFor c) (natToDecimalDigits (valBEc F)) = F.map charVal := by
      rw [show natToDecimalDigits (valBEc F) = canonDigits (F.map charVal) from
        natToDecimalDigits_valBE (F.map charVal) hF10]
      exact padZeros_canon _ _ hFlen he
    rw [h1, h2, map_digitChar_charVal F hFd]
    simp only [normalizeAmount, hp]
    have hFne : F ≠ [] := by
      intro h0
      rw [h0] at hf
      simp at hf
      omega
    rw [if_neg hFne]
  · have hF : F = [] := List.length_eq_zero.mp (by omega)
    have he0 : exponentFor c = 0 := by omega
    subst hF
    rw [List.append_nil]
    rw [fromMinorUnits, if_pos he0]
    have h1 : natToDecimalDigits (valBEc I) = canonDigits (I.map charVal) :=
      natToDecimalDigits_valBE (I.map charVal) hI10
    rw [h1]
    simp only [normalizeAmount, hp]
    simp

/-- C1 counterexample to the claim as stated: the amount 1.5 in EUR has
one fractional digit, at most the exponent 2, yet the round trip returns
1.50, which differs from 1.5 by a trailing zero, not a leading one. -/
theorem C1_counterexample :
    decimalShape (String.data "1.5") = some (['1'], ['5']) ∧
    (['5'] : List Char).length ≤ exponentFor "EUR" ∧
    toMinorUnits "1.5" "EUR" = .ok 150 ∧
    fromMinorUnits 150 "EUR" = "1.50" ∧
    normalizeAmount "1.5" = some "1.5" ∧
    ("1.50" : String) ≠ "1.5" := by
  decide

theorem C1_minor_units_roundtrip_witness :
    decimalShape (String.data "10.50") = some (['1', '0'], ['5', '0']) ∧
    (['5', '0'] : List Char).length = exponentFor "EUR" ∧
    valBEc (['1', '0'] ++ ['5', '0']) < 2 ^ 53 ∧
    toMinorUnits "10.50" "EUR" = .ok (valBEc (['1', '0'] ++ ['5', '0'])) ∧
    normalizeAmount "10.50" = some (fromMinorUnits (valBEc (['1', '0'] ++ ['5', '0'])) "EUR") := by
  have h := C1_minor_units_roundtrip "10.50" "EUR" ['1', '0'] ['5', '0']
    (by decide) (by decide) (by decide)
  exact ⟨by decide, by decide, by decide, h.1, h.2⟩

/- ===================== C9: toMinorUnits error behavior ===================== -/

/-- Value that toMinorUnits computes for a parsed amount: the integer and
fractional digits joined after truncating or zero-padding the fractional
part to the currency exponent. -/
def scaledMinorValue (I F : List Char) (e : Nat) : Nat :=
  valBEc (if e > 0 then I ++ (F ++ List.replicate e '0').take e else I)

/-- C9 (amended): toMinorUnits fails with the invalid-amount-format error
exactly when the amount does not match the digits-dot-digits pattern; a
matching amount returns an integer provided its scaled digit value stays
below the JS float64 overflow boundary (otherwise the distinct
invalid-amount error is thrown). -/
theorem C9_invalid_format_exactly (x c : String) :
    (toMinorUnits x c = .error .invalidFormat ↔ decimalShape x.data = none) ∧
    (∀ I F, decimalShape x.data = some (I, F) →
      scaledMinorValue I F (exponentFor c) < jsNumberInfinityBound →
      toMinorUnits x c = .ok (scaledMinorValue I F (exponentFor c))) ∧
    (∀ I F, decimalShape x.data = some (I, F) →
      jsNumberInfinityBound ≤ scaledMinorValue I F (exponentFor c) →
      toMinorUnits x c = .error .invalidAmount) := by
  refine ⟨?_, ?_, ?_⟩
  · constructor
    · intro h
      rcases hps : decimalShape x.data with _ | ⟨I, F⟩
      · rfl
      · simp only [toMinorUnits, hps] at h
        split at h <;> (try split at h) <;> (try split at h) <;> simp_all
    · intro h
      simp [toMinorUnits, h]
  · intro I F hp hb
    simp only [toMinorUnits, hp, scaledMinorValue] at hb ⊢
    by_cases he : exponentFor c > 0
    · simp only [he, if_true] at hb ⊢
      rw [valBEc_strip (I ++ (F ++ List.replicate (exponentFor c) '0').take (exponentFor c)),
        if_pos hb]
    · simp only [he, if_false] at hb ⊢
      rw [valBEc_strip I, if_pos hb]
  · intro I F hp hb
    simp only [toMinorUnits, hp, scaledMinorValue] at hb ⊢
    by_cases he : exponentFor c > 0
    · simp only [he, if_true] at hb ⊢
      rw [valBEc_strip (I ++ (F ++ List.replicate (exponentFor c) '0').take (exponentFor c)),
        if_neg (by omega)]
    · simp only [he, if_false] at hb ⊢
      rw [valBEc_strip I, if_neg (by omega)]

set_option maxRecDepth 40000 in
/-- C9 counterexample to the claim as stated: an amount of 310 digits
matches the pattern, yet toMinorUnits throws (the JS number overflows to
Infinity and the Number.isFinite guard fires with a different error). -/
theorem C9_counterexample :
    (decimalShape (String.mk ('1' :: List.replicate 309 '0')).data).isSome = true ∧
    toMinorUnits (String.mk ('1' :: List.replicate 309 '0')) "EUR" = .error .invalidAmount := by
  constructor <;> decide

theorem C9_invalid_format_exactly_witness :
    toMinorUnits "x2" "EUR" = .error .invalidFormat ∧
    toMinorUnits "12.34" "EUR" = .ok 1234 := by
  constructor
  · exact (C9_invalid_format_exactly "x2" "EUR").1.mpr (by decide)
  · have h := (C9_invalid_format_exactly "12.34" "EUR").2.1 ['1', '2'] ['3', '4']
      (by decide) (by decide)
    rw [h]
    decide

example : toMinorUnits "10.50" "EUR" = .ok 1050 := by decide
example : toMinorUnits "007.25" "eur" = .ok 725 := by decide
example : toMinorUnits "120" "JPY" = .ok 120 := by decide
example : toMinorUnits "1.234" "BHD" = .ok 1234 := by decide
example : toMinorUnits "1.2.3" "EUR" = .error .invalidFormat := by decide
example : toMinorUnits "x" "EUR" = .error .invalidFormat := by decide
example : fromMinorUnits 1050 "EUR" = "10.50" := by decide
example : fromMinorUnits 5 "EUR" = "0.05" := by decide
example : fromMinorUnits 0 "EUR" = "0.00" := by decide
example : fromMinorUnits 120 "JPY" = "120" := by decide
example : fromMinorUnits 1234 "BHD" = "1.234" := by decide

/- ===================== SHA-256 and HMAC (model of crypto createHmac) ===================== -/

/-- Reduce to a 32-bit word. -/
def u32 (n : Nat) : Nat := n % 4294967296

/-- Rotate a 32-bit word right by k. -/
def rotr32 (k x : Nat) : Nat := u32 ((x >>> k) ||| (x <<< (32 - k)))

/-- Bitwise complement of a 32-bit word. -/
def not32 (x : Nat) : Nat := 4294967295 - u32 x

def shaCh (x y z : Nat) : Nat := (x &&& y) ^^^ (not32 x &&& z)

def shaMaj (x y z : Nat) : Nat := (x &&& y) ^^^ (x &&& z) ^^^ (y &&& z)

def bigSigma0 (x : Nat) : Nat := rotr32 2 x ^^^ rotr32 13 x ^^^ rotr32 22 x

def bigSigma1 (x : Nat) : Nat := rotr32 6 x ^^^ rotr32 11 x ^^^ rotr32 25 x

def smallSigma0 (x : Nat) : Nat := rotr32 7 x ^^^ rotr32 18 x ^^^ (x >>> 3)

def smallSigma1 (x : Nat) : Nat := rotr32 17 x ^^^ rotr32 19 x ^^^ (x >>> 10)

/-- SHA-256 round constants. -/
def K256 : List Nat :=
  [1116352408, 1899447441, 3049323471, 3921009573, 961987163, 1508970993,
   2453635748, 2870763221, 3624381080, 310598401, 607225278, 1426881987,
   1925078388, 2162078206, 2614888103, 3248222580, 3835390401, 4022224774,
   264347078, 604807628, 770255983, 1249150122, 1555081692, 1996064986,
   2554220882, 2821834349, 2952996808, 3210313671, 3336571891, 3584528711,
   113926993, 338241895, 666307205, 773529912, 1294757372, 1396182291,
   1695183700, 1986661051, 2177026350, 2456956037, 2730485921, 2820302411,
   3259730800, 3345764771, 3516065817, 3600352804, 4094571909, 275423344,
   430227734, 506948616, 659060556, 883997877, 958139571, 1322822218,
   1537002063, 1747873779, 1955562222, 2024104815, 2227730452, 2361852424,
   2428436474, 2756734187, 3204031479, 3329325298]

/-- SHA-256 initial hash state. -/
def H256 : List Nat :=
  [1779033703, 3144134277, 1013904242, 2773480762,
   1359893119, 2600822924, 528734635, 1541459225]

/-- Extend the message schedule by one word. -/
def extendOnce (ws : List Nat) : List Nat :=
  let n := ws.length
  ws ++ [u32 (smallSigma1 (ws.getD (n - 2) 0) + ws.getD (n - 7) 0 +
    smallSigma0 (ws.getD (n - 15) 0) + ws.getD (n - 16) 0)]

/-- Extend the message schedule by k words. -/
def shaSchedule : Nat → List Nat → List Nat
  | 0, ws => ws
  | k + 1, ws => shaSchedule k (extendOnce ws)

/-- One SHA-256 compression round on the 8-word state. -/
def shaRound (st : List Nat) (k w : Nat) : List Nat :=
  match st with
  | [a, b, c, d, e, f, g, h] =>
    let t1 := u32 (h + bigSigma1 e + shaCh e f g + k + w)
    let t2 := u32 (bigSigma0 a + shaMaj a b c)
    [u32 (t1 + t2), a, b, c, u32 (d + t1), e, f, g]
  | other => other

/-- Compress one 16-word block into the running hash state. -/
def sha256Compress (hs : List Nat) (block : List Nat) : List Nat :=
  let w := shaSchedule 48 block
  let st := (List.zip K256 w).foldl (fun st p => shaRound st p.1 p.2) hs
  (List.zip hs st).map (fun p => u32 (p.1 + p.2))

/-- Big-endian byte rendering of a number on k bytes. -/
def beBytes : Nat → Nat → List Nat
  | 0, _ => []
  | k + 1, n => (n >>> (8 * k)) % 256 :: beBytes k n

/-- Group bytes into big-endian 32-bit words. -/
def bytesToWords : List Nat → List Nat
  | b0 :: b1 :: b2 :: b3 :: rest =>
    ((b0 <<< 24) ||| (b1 <<< 16) ||| (b2 <<< 8) ||| b3) :: bytesToWords rest
  | _ => []

/-- Cut a byte list into 64-byte blocks (structural fuel so the kernel
can evaluate it; the fuel is an upper bound on the number of blocks). -/
def chunks64Aux : Nat → List Nat → List (List Nat)
  | 0, _ => []
  | fuel + 1, l => if l = [] then [] else l.take 64 :: chunks64Aux fuel (l.drop 64)

def chunks64 (l : List Nat) : List (List Nat) := chunks64Aux l.length l

/-- SHA-256 message padding. -/
def sha256Pad (msg : List Nat) : List Nat :=
  let l := msg.length
  let zeros := (64 - (l + 9) % 64) % 64
  msg ++ 128 :: (List.replicate zeros 0 ++ beBytes 8 (8 * l))

/-- SHA-256 of a byte list, as a 32-byte list. -/
def sha256 (msg : List Nat) : List Nat :=
  let blocks := chunks64 (sha256Pad msg)
  let hs := blocks.foldl (fun hs b => sha256Compress hs (bytesToWords b)) H256
  hs.foldr (fun w acc => beBytes 4 w ++ acc) []

def hexDigitChar (n : Nat) : Char := if n < 10 then Char.ofNat (48 + n) else Char.ofNat (87 + n)

/-- Lowercase hex rendering of a byte list (model of digest hex). -/
def bytesToHex (bytes : List Nat) : String :=
  String.mk (bytes.foldr (fun b acc => hexDigitChar (b / 16) :: hexDigitChar (b % 16) :: acc) [])

/-- UTF-8 encoding of one character as byte values. -/
def utf8EncodeCharNat (c : Char) : List Nat :=
  let n := c.toNat
  if n < 128 then [n]
  else if n < 2048 then [192 + n / 64, 128 + n % 64]
  else if n < 65536 then [224 + n / 4096, 128 + (n / 64) % 64, 128 + n % 64]
  else [240 + n / 262144, 128 + (n / 4096) % 64, 128 + (n / 64) % 64, 128 + n % 64]

/-- UTF-8 bytes of a string (model of Buffer.from(s, utf8)). -/
def utf8Bytes (s : String) : List Nat :=
  s.data.foldr (fun c acc => utf8EncodeCharNat c ++ acc) []

/-- HMAC-SHA256 with byte-list key and message. -/
def hmacSha256 (key msg : List Nat) : List Nat :=
  let k0 := if 64 < key.length then sha256 key else key
  let kp := k0 ++ List.replicate (64 - k0.length) 0
  let inner := sha256 ((kp.map (fun b => b ^^^ 0x36)) ++ msg)
  sha256 ((kp.map (fun b => b ^^^ 0x5c)) ++ inner)

/-- Hex HMAC-SHA256, the form compared against header signatures. -/
def hmacHex (key msg : List Nat) : String := bytesToHex (hmacSha256 key msg)

set_option maxRecDepth 20000 in
example :
    bytesToHex (sha256 (utf8Bytes "abc")) =
      "ba7816bf8f01cfea414140de5dae2223b00361a396177a9cb410ff61f20015ad" := by decide

set_option maxRecDepth 20000 in
example :
    bytesToHex (sha256 []) =
      "e3b0c44298fc1c149afbf4c8996fb92427ae41e4649b934ca495991b7852b855" := by decide

set_option maxRecDepth 40000 in
example :
    hmacHex (utf8Bytes "Jefe") (utf8Bytes "what do ya want for nothing?") =
      "5bdcc146bf60754e6a042426089575c75a003f089d2739839dec58b964ec3843" := by decide

/- ===================== Signature verification (duffel-webhook.service.ts) ===================== -/

/-- One key=value piece of the signature header: the piece is trimmed,
split on the equals sign, and destructured into the key and an optional
value (the value is absent when the piece has no equals sign). -/
def parsePair (piece : List Char) : String × Option String :=
  let parts := splitOnChar '=' piece
  (String.mk (parts.headD []), (parts.drop 1).head?.map String.mk)

def headerPairs (header : String) : List (String × Option String) :=
  (splitOnChar ',' header.data).map (fun s => parsePair (jsTrim (String.mk s)).data)

/-- Lookup in the object built by Object.fromEntries: the last pair with
the given key wins, and its value may be absent. -/
def entriesLookup (pairs : List (String × Option String)) (k : String) : Option String :=
  (pairs.reverse.find? (fun p => p.1 = k)).bind Prod.snd

/-- JS truthiness of an optional string: undefined and the empty string
are falsy. -/
def truthyStr : Option String → Bool
  | none => false
  | some s => s ≠ ""

/-- Key matching the v-digits regex (a v followed by one or more
digits). -/
def isVKey (s : String) : Bool :=
  match s.data with
  | 'v' :: rest => !rest.isEmpty && rest.all Char.isDigit
  | _ => false

/-- Candidate signature selection: the v1 entry is preferred; when its
value is falsy, the first v-number pair with a truthy value is used. -/
def selectedSig (pairs : List (String × Option String)) : Option String :=
  let v1 := entriesLookup pairs "v1"
  if truthyStr v1 then v1
  else (pairs.find? (fun p => isVKey p.1 && truthyStr p.2)).bind Prod.snd

/-- Base64 value of a character under the permissive Node alphabet, which
accepts both the standard and the URL-safe characters. -/
def b64Val (c : Char) : Option Nat :=
  if 'A' ≤ c ∧ c ≤ 'Z' then some (c.toNat - 65)
  else if 'a' ≤ c ∧ c ≤ 'z' then some (c.toNat - 97 + 26)
  else if '0' ≤ c ∧ c ≤ '9' then some (c.toNat - 48 + 52)
  else if c = '+' ∨ c = '-' then some 62
  else if c = '/' ∨ c = '_' then some 63
  else none

/-- Byte assembly from 6-bit groups, dropping a dangling group that does
not complete a byte. -/
def sextetsToBytes : List Nat → List Nat
  | a :: b :: c :: d :: rest =>
    ((a <<< 2) ||| (b >>> 4)) :: (((b % 16) <<< 4) ||| (c >>> 2)) ::
      (((c % 4) <<< 6) ||| d) :: sextetsToBytes rest
  | [a, b, c] => [(a <<< 2) ||| (b >>> 4), ((b % 16) <<< 4) ||| (c >>> 2)]
  | [a, b] => [(a <<< 2) ||| (b >>> 4)]
  | _ => []

/-- Model of Buffer.from(s, base64) in Node: decoding stops at the first
padding character, other non-alphabet characters are skipped. -/
def nodeBase64Decode (s : String) : List Nat :=
  sextetsToBytes ((s.data.takeWhile (· ≠ '=')).filterMap b64Val)

/-- Model of the safeEq wrapper in verifySignature: timingSafeEqual on
the UTF-8 bytes of both strings, false when lengths differ (the thrown
RangeError is caught), which coincides with string equality. -/
def safeEq (a b : String) : Bool := a = b

/-- URL-safe normalization applied before the third decoding attempt:
minus and underscore become plus and slash, then padding is appended
until the length is a multiple of four. -/
def urlSafeNormalize (s : String) : String :=
  let core := s.data.map (fun c => if c = '-' then '+' else if c = '_' then '/' else c)
  String.mk (core ++ List.replicate ((4 - core.length % 4) % 4) '=')

/-- Model of DuffelWebhookService.verifySignature, parameterized by the
configured webhook secret environment value.  The three sequential
early-return comparisons of the source are written as a disjunction. -/
def verifySignature (envSecret : String) (header : String) (rawBody : List Nat) : Bool :=
  let pairs := headerPairs header
  let t := entriesLookup pairs "t"
  let sig := selectedSig pairs
  if truthyStr t && truthyStr sig then
    let tv := t.getD ""
    let sv := sig.getD ""
    let secretRaw := jsTrim envSecret
    if secretRaw = "" then false
    else
      let msg := utf8Bytes tv ++ 46 :: rawBody
      let kB64 := nodeBase64Decode secretRaw
      let kB64u := nodeBase64Decode (urlSafeNormalize secretRaw)
      safeEq (hmacHex (utf8Bytes secretRaw) msg) sv ||
        (decide (kB64.length ≠ 0) && safeEq (hmacHex kB64 msg) sv) ||
        (decide (kB64u.length ≠ 0) && safeEq (hmacHex kB64u msg) sv)
  else false

/-- Specification-side view of the timestamp and candidate signature the
code selects from a header. -/
def selectedCandidate (header : String) : Option (String × String) :=
  match entriesLookup (headerPairs header) "t", selectedSig (headerPairs header) with
  | some tv, some sv => if tv ≠ "" ∧ sv ≠ "" then some (tv, sv) else none
  | _, _ => none

/-- Specification-side list of the hex HMAC values the code compares the
selected candidate against: the secret as UTF-8, as Base64 when it
decodes to at least one byte, and as URL-safe-normalized Base64 when it
decodes to at least one byte. -/
def candidateHmacs (secretRaw : String) (tv : String) (rawBody : List Nat) : List String :=
  let msg := utf8Bytes tv ++ 46 :: rawBody
  [hmacHex (utf8Bytes secretRaw) msg] ++
    (if (nodeBase64Decode secretRaw).length ≠ 0 then
      [hmacHex (nodeBase64Decode secretRaw) msg] else []) ++
    (if (nodeBase64Decode (urlSafeNormalize secretRaw)).length ≠ 0 then
      [hmacHex (nodeBase64Decode (urlSafeNormalize secretRaw)) msg] else [])

theorem selectedSig_truthy (pairs : List (String × Option String)) (sv : String)
    (h : selectedSig pairs = some sv) : sv ≠ "" := by
  intro he
  subst he
  rw [selectedSig] at h
  by_cases h1 : truthyStr (entriesLookup pairs "v1") = true
  · rw [if_pos h1] at h
    rw [h] at h1
    simp [truthyStr] at h1
  · rw [if_neg h1] at h
    rcases hf : pairs.find? (fun p => isVKey p.1 && truthyStr p.2) with _ | p <;> rw [hf] at h
    · simp at h
    · simp only [Option.bind] at h
      have hp := List.find?_some hf
      simp only [Bool.and_eq_true] at hp
      have := hp.2
      rw [h] at this
      simp [truthyStr] at this

/-- C4 (amended): verifySignature accepts exactly when a timestamp and a
selected candidate signature are present, the trimmed secret is nonempty,
and the selected candidate (v1 preferred, else the first v-number entry
with a nonempty value) equals one of the recomputed hex HMAC values under
the three secret decodings; in particular a mutation of body, timestamp,
or signature verifies false whenever the selected candidate then differs
from all three recomputed values. -/
theorem safeEq_eq_true_iff (a b : String) : safeEq a b = true ↔ b = a := by
  rw [safeEq]
  constructor
  · intro h
    exact (of_decide_eq_true h).symm
  · intro h
    exact decide_eq_true h.symm

theorem orChain_mem_iff (sv h1 h2 h3 : String) (n1 n2 : Nat) :
    (safeEq h1 sv || (decide (n1 ≠ 0) && safeEq h2 sv) ||
      (decide (n2 ≠ 0) && safeEq h3 sv)) = true ↔
      sv ∈ [h1] ++ (if n1 ≠ 0 then [h2] else []) ++ (if n2 ≠ 0 then [h3] else []) := by
  by_cases hl1 : n1 ≠ 0 <;> by_cases hl2 : n2 ≠ 0 <;>
    simp [hl1, hl2, safeEq_eq_true_iff] <;> tauto

set_option maxHeartbeats 2000000 in
theorem C4_signature_verification (envSecret header : String) (rawBody : List Nat) :
    verifySignature envSecret header rawBody = true ↔
      (jsTrim envSecret ≠ "" ∧ ∃ tv sv, selectedCandidate header = some (tv, sv) ∧
        sv ∈ candidateHmacs (jsTrim envSecret) tv rawBody) := by
  rcases ht : entriesLookup (headerPairs header) "t" with _ | tv
  · rw [verifySignature]
    constructor
    · intro h
      rw [ht] at h
      simp [truthyStr] at h
    · rintro ⟨-, tv, sv, hsel, -⟩
      rcases hss : selectedSig (headerPairs header) with _ | s <;>
        simp [selectedCandidate, ht, hss] at hsel
  · rcases hs : selectedSig (headerPairs header) with _ | sv
    · rw [verifySignature]
      constructor
      · intro h
        rw [ht, hs] at h
        simp [truthyStr] at h
      · rintro ⟨-, tv2, sv2, hsel, -⟩
        simp [selectedCandidate, ht, hs] at hsel
    · have hsvne : sv ≠ "" := selectedSig_truthy _ sv hs
      by_cases htv : tv = ""
      · subst htv
        rw [verifySignature]
        constructor
        · intro h
          rw [ht, hs] at h
          simp [truthyStr] at h
        · rintro ⟨-, tv2, sv2, hsel, -⟩
          simp [selectedCandidate, ht, hs] at hsel
      · have htruthy : (truthyStr (some tv) && truthyStr (some sv)) = true := by
          simp [truthyStr, htv, hsvne]
        have hsel : selectedCandidate header = some (tv, sv) := by
          simp only [selectedCandidate, ht, hs]
          rw [if_pos ⟨htv, hsvne⟩]
        have hexists : (∃ tv2 sv2, selectedCandidate header = some (tv2, sv2) ∧
            sv2 ∈ candidateHmacs (jsTrim envSecret) tv2 rawBody) ↔
            sv ∈ candidateHmacs (jsTrim envSecret) tv rawBody := by
          constructor
          · rintro ⟨tv2, sv2, hsel2, hmem⟩
            have h12 := hsel.symm.trans hsel2
            simp only [Option.some.injEq, Prod.mk.injEq] at h12
            obtain ⟨h1, h2⟩ := h12
            subst h1
            subst h2
            exact hmem
          · intro hmem
            exact ⟨tv, sv, hsel, hmem⟩
        by_cases hsec : jsTrim envSecret = ""
        · rw [verifySignature]
          simp only [ht, hs, Option.getD_some]
          rw [if_pos htruthy, if_pos hsec]
          constructor
          · intro h
            simp at h
          · rintro ⟨hne, -⟩
            exact absurd hsec hne
        · rw [verifySignature]
          simp only [ht, hs, Option.getD_some]
          rw [if_pos htruthy, if_neg hsec]
          rw [show (jsTrim envSecret ≠ "" ∧ ∃ tv2 sv2,
              selectedCandidate header = some (tv2, sv2) ∧
              sv2 ∈ candidateHmacs (jsTrim envSecret) tv2 rawBody) ↔
              sv ∈ candidateHmacs (jsTrim envSecret) tv rawBody from
            ⟨fun hh => hexists.mp hh.2, fun hh => ⟨hsec, hexists.mpr hh⟩⟩]
          rw [candidateHmacs]
          exact orChain_mem_iff sv _ _ _ _ _

set_option maxRecDepth 200000 in
set_option maxHeartbeats 2000000 in
/-- C4 counterexample to the claim as stated: a header whose v2 candidate
equals the correct UTF-8-keyed HMAC while v1 does not; the code compares
only the selected candidate v1, so verification fails even though a
candidate matches under one of the three decodings. -/
theorem C4_counterexample :
    hmacHex (utf8Bytes "whsec_test") (utf8Bytes "12345" ++ 46 :: utf8Bytes "hello") =
      "256ccd23f002cacd575297423306f633c56065daa8735cfe7c59e3d217b4abb4" ∧
    "256ccd23f002cacd575297423306f633c56065daa8735cfe7c59e3d217b4abb4" ∈
      candidateHmacs (jsTrim "whsec_test") "12345" (utf8Bytes "hello") ∧
    entriesLookup (headerPairs
        "t=12345,v1=deadbeef,v2=256ccd23f002cacd575297423306f633c56065daa8735cfe7c59e3d217b4abb4")
        "v2" =
      some "256ccd23f002cacd575297423306f633c56065daa8735cfe7c59e3d217b4abb4" ∧
    verifySignature "whsec_test"
        "t=12345,v1=deadbeef,v2=256ccd23f002cacd575297423306f633c56065daa8735cfe7c59e3d217b4abb4"
        (utf8Bytes "hello") = false := by
  refine ⟨by decide, by decide, by decide, by decide⟩

/-- C10: verifySignature is total by construction and fails closed: it
returns false when the header has no t entry, when the header has no
v-number candidate at all, and when the configured secret trims to the
empty string. -/
theorem C10_verify_fails_closed (envSecret header : String) (rawBody : List Nat) :
    ((∀ p ∈ headerPairs header, p.1 ≠ "t") →
      verifySignature envSecret header rawBody = false) ∧
    ((∀ p ∈ headerPairs header, isVKey p.1 = false) →
      verifySignature envSecret header rawBody = false) ∧
    (jsTrim envSecret = "" → verifySignature envSecret header rawBody = false) := by
  refine ⟨?_, ?_, ?_⟩
  · intro h
    have hfind : (headerPairs header).reverse.find? (fun p => p.1 = "t") = none :=
      List.find?_eq_none.mpr (fun p hp => by
        simpa using h p (List.mem_reverse.mp hp))
    have hlook : entriesLookup (headerPairs header) "t" = none := by
      rw [entriesLookup, hfind]
      rfl
    rw [verifySignature, hlook]
    simp [truthyStr]
  · intro h
    have hfindv : (headerPairs header).reverse.find? (fun p => p.1 = "v1") = none :=
      List.find?_eq_none.mpr (fun p hp => by
        have hvk := h p (List.mem_reverse.mp hp)
        intro hk
        rw [show p.1 = "v1" by simpa using hk] at hvk
        exact absurd hvk (by decide))
    have hv1 : entriesLookup (headerPairs header) "v1" = none := by
      rw [entriesLookup, hfindv]
      rfl
    have hfall : (headerPairs header).find? (fun p => isVKey p.1 && truthyStr p.2) = none :=
      List.find?_eq_none.mpr (fun p hp => by simp [h p hp])
    have hsel : selectedSig (headerPairs header) = none := by
      rw [selectedSig, hv1]
      rw [if_neg (by simp [truthyStr])]
      rw [hfall]
      rfl
    rw [verifySignature, hsel]
    simp [truthyStr]
  · intro h
    rw [verifySignature]
    by_cases hts : (truthyStr (entriesLookup (headerPairs header) "t") &&
        truthyStr (selectedSig (headerPairs header))) = true
    · simp only [hts, if_true]
      rw [if_pos h]
    · simp only [hts]
      simp

theorem C10_verify_fails_closed_witness :
    verifySignature "secret" "x=1,y=2" [104] = false ∧
    verifySignature "secret" "t=1" [104] = false ∧
    verifySignature "" "t=1,v1=abc" [104] = false :=
  ⟨(C10_verify_fails_closed "secret" "x=1,y=2" [104]).1 (by decide),
   (C10_verify_fails_closed "secret" "t=1" [104]).2.1 (by decide),
   (C10_verify_fails_closed "" "t=1,v1=abc" [104]).2.2 (by decide)⟩

/- ===================== Inbound webhook handler (duffel-webhook.controller.ts) ===================== -/

/-- Environment configuration read by the controller and the service. -/
structure DuffelWebhookEnv where
  duffelWebhookSecret : String
  devAcceptUnverified : String
  nodeEnv : String
deriving DecidableEq, Repr

inductive HandleOutcome where
  | unauthorized (msg : String)
  | accepted
deriving DecidableEq, Repr

/-- Observable effects of one request to the handler: the HTTP outcome
and whether the event was audited and enqueued (enqueueAndPersist runs
only on acceptance). -/
structure HandleEffects where
  outcome : HandleOutcome
  audited : Bool
  enqueued : Bool
deriving DecidableEq, Repr

/-- Model of DuffelWebhookController.handle.  The dev bypass flag is the
sole gate: the code never consults the node environment.  The JSON parse
of the accepted body is treated as succeeding (a parse failure would be a
500, not the 401 path this claim is about). -/
def handleDuffelWebhook (env : DuffelWebhookEnv) (signature : Option String)
    (raw : List Nat) : HandleEffects :=
  let devBypass := env.devAcceptUnverified = "true"
  match signature with
  | none =>
    if devBypass then { outcome := .accepted, audited := true, enqueued := true }
    else { outcome := .unauthorized "Missing signature", audited := false, enqueued := false }
  | some sig =>
    let ok := verifySignature env.duffelWebhookSecret sig raw
    if ¬ ok ∧ ¬ devBypass then
      { outcome := .unauthorized "Invalid signature", audited := false, enqueued := false }
    else { outcome := .accepted, audited := true, enqueued := true }

/-- C8 (amended): a missing or unverifiable signature is rejected with
Unauthorized and neither audited nor enqueued whenever the
accept-unverified flag is not set to the string true; when the flag is
set to true the request is accepted regardless of the verification result
and regardless of the node environment (the code never checks it). -/
theorem C8_unauthorized_gating (env : DuffelWebhookEnv) (signature : Option String)
    (raw : List Nat) :
    (env.devAcceptUnverified ≠ "true" → signature = none →
      handleDuffelWebhook env signature raw =
        { outcome := .unauthorized "Missing signature", audited := false, enqueued := false }) ∧
    (env.devAcceptUnverified ≠ "true" → ∀ s, signature = some s →
      verifySignature env.duffelWebhookSecret s raw = false →
      handleDuffelWebhook env signature raw =
        { outcome := .unauthorized "Invalid signature", audited := false, enqueued := false }) ∧
    (env.devAcceptUnverified = "true" →
      (handleDuffelWebhook env signature raw).outcome = .accepted) ∧
    (∀ ne2, handleDuffelWebhook { env with nodeEnv := ne2 } signature raw =
      handleDuffelWebhook env signature raw) := by
  refine ⟨?_, ?_, ?_, ?_⟩
  · intro hflag hsig
    subst hsig
    rw [handleDuffelWebhook]
    simp [hflag]
  · intro hflag s hsig hverify
    subst hsig
    rw [handleDuffelWebhook]
    simp [hflag, hverify]
  · intro hflag
    rcases signature with _ | s <;> rw [handleDuffelWebhook] <;> simp [hflag]
  · intro ne2
    rcases signature with _ | s <;> rfl

/-- C8 counterexample to the claim as stated: with the dev flag set to
true in a production node environment, an invalid signature is accepted
and enqueued; the code has no non-production restriction on the escape
hatch. -/
theorem C8_counterexample :
    verifySignature "s" "bogus" (utf8Bytes "x") = false ∧
    handleDuffelWebhook
        { duffelWebhookSecret := "s", devAcceptUnverified := "true", nodeEnv := "production" }
        (some "bogus") (utf8Bytes "x") =
      { outcome := .accepted, audited := true, enqueued := true } := by
  constructor <;> decide

theorem C8_unauthorized_gating_witness :
    handleDuffelWebhook
        { duffelWebhookSecret := "s", devAcceptUnverified := "", nodeEnv := "production" }
        none (utf8Bytes "x") =
      { outcome := .unauthorized "Missing signature", audited := false, enqueued := false } ∧
    handleDuffelWebhook
        { duffelWebhookSecret := "s", devAcceptUnverified := "", nodeEnv := "production" }
        (some "bogus") (utf8Bytes "x") =
      { outcome := .unauthorized "Invalid signature", audited := false, enqueued := false } :=
  ⟨(C8_unauthorized_gating
      { duffelWebhookSecret := "s", devAcceptUnverified := "", nodeEnv := "production" }
      none (utf8Bytes "x")).1 (by decide) rfl,
   (C8_unauthorized_gating
      { duffelWebhookSecret := "s", devAcceptUnverified := "", nodeEnv := "production" }
      (some "bogus") (utf8Bytes "x")).2.1 (by decide) "bogus" rfl (by decide)⟩

/- ===================== Event processor (duffel-webhook.processor.ts) ===================== -/

/-- Local Order row (the subset of columns the modelled paths read or
write). -/
structure OrderRow where
  id : String
  duffelId : String
  offerId : String
  userId : String
  status : Option String
  amount : String
  currency : String
  owner : Option String
  liveMode : Bool
  lastEventType : Option String
  paymentProvider : Option String
  paymentIntentId : Option String
  paymentStatus : Option String
  eticketReady : Bool
deriving DecidableEq, Repr

/-- Provider order snapshot carried by order.created and order.updated
events. -/
structure DuffelOrderSnap where
  id : String
  offer_id : Option String
  status : Option String
  total_amount : Option String
  total_currency : Option String
  owner_iata : Option String
  owner_name : Option String
  live_mode : Option Bool
deriving DecidableEq, Repr

/-- Cancellation object carried by order_cancellation events; an empty id
models a missing id field. -/
structure CancObj where
  id : String
  order_id : String
  refund_amount : Option String
  refund_currency : Option String
  refund_to : Option String
  expires_at : Option String
  confirmed_at : Option String
  live_mode : Bool
deriving DecidableEq, Repr

/-- Payloads of recognized events: an order snapshot, a cancellation
object, or the airline-change payload identified by its order id. -/
inductive EventObj where
  | ord (o : DuffelOrderSnap)
  | canc (c : CancObj)
  | chg (orderId : String)
deriving DecidableEq, Repr

structure DuffelEvent where
  id : String
  type : String
  idempotency_key : Option String
  live_mode : Bool
  data : Option EventObj
deriving DecidableEq, Repr

/-- Local OrderCancellation mirror row. -/
structure CancRow where
  duffelCancellationId : String
  orderDuffelId : String
  refundAmount : Option String
  refundCurrency : Option String
  refundTo : Option String
  expiresAt : Option String
  confirmedAt : Option String
  liveMode : Bool
deriving DecidableEq, Repr

/-- Durable state the processor touches: Order rows, users, the
idempotency ledger (processedKey), the webhook audit rows with their
processedAt stamp, schedule-change rows, cancellation mirrors, and the
eticket-poll queue with its per-order jobId deduplication. -/
structure ProcState where
  orders : List OrderRow
  users : List String
  ledger : List String
  audit : List (String × Bool)
  scheduleChanges : List (String × String)
  cancellations : List CancRow
  pollQueue : List (String × Nat)
deriving DecidableEq, Repr

def computeKey (ev : DuffelEvent) : String :=
  match ev.idempotency_key with
  | some k => ev.type ++ "|" ++ k
  | none => "event|" ++ ev.id

def findOrder (orders : List OrderRow) (duffelId : String) : Option OrderRow :=
  orders.find? (fun r => r.duffelId = duffelId)

def updateOrderRows (orders : List OrderRow) (duffelId : String)
    (f : OrderRow → OrderRow) : List OrderRow :=
  orders.map (fun r => if r.duffelId = duffelId then f r else r)

/-- Model of the ensureAnyUser fallback: the first user if any, else a
freshly created system user. -/
def ensureAnyUser (s : ProcState) : String × ProcState :=
  match s.users with
  | u :: _ => (u, s)
  | [] => ("user:system", { s with users := ["user:system"] })

/-- Model of upsertOrderMeta: upsert keyed by the provider booking id;
absent snapshot fields leave existing columns unchanged on update and
take the coded defaults on create. -/
def upsertOrderMeta (o : DuffelOrderSnap) (lastEventType : String) (s : ProcState) : ProcState :=
  match findOrder s.orders o.id with
  | some _ =>
    { s with orders := updateOrderRows s.orders o.id (fun r =>
      { r with
        status := match o.status with | some st => some st | none => r.status
        amount := o.total_amount.getD r.amount
        currency := o.total_currency.getD r.currency
        owner := match o.owner_iata.orElse (fun _ => o.owner_name) with
          | some w => some w
          | none => r.owner
        liveMode := o.live_mode.getD r.liveMode
        lastEventType := some lastEventType }) }
  | none =>
    let fromRow := (findOrder s.orders o.id).map (fun r => r.userId)
    let (uid, s1) := match fromRow with
      | some u => (u, s)
      | none => ensureAnyUser s
    { s1 with orders := s1.orders ++
      [{ id := "ord:" ++ o.id
         duffelId := o.id
         offerId := o.offer_id.getD "unknown"
         userId := uid
         status := o.status
         amount := o.total_amount.getD "0"
         currency := o.total_currency.getD "USD"
         owner := o.owner_iata.orElse (fun _ => o.owner_name)
         liveMode := o.live_mode.getD false
         lastEventType := some lastEventType
         paymentProvider := none
         paymentIntentId := none
         paymentStatus := none
         eticketReady := false }] }

/-- Enqueue an eticket poll with jobId poll:orderId, deduplicated on the
job id. -/
def enqueuePoll (s : ProcState) (orderId : String) (attempt : Nat) : ProcState :=
  if s.pollQueue.any (fun j => j.1 = orderId) then s
  else { s with pollQueue := s.pollQueue ++ [(orderId, attempt)] }

/-- Model of persistAirlineChange: the schedule-change row references the
local order row id; a missing order makes the insert throw. -/
def persistAirlineChange (duffelOrderId : String) (s : ProcState) : Except Unit ProcState :=
  match findOrder s.orders duffelOrderId with
  | some r => .ok { s with scheduleChanges := s.scheduleChanges ++ [(r.id, duffelOrderId)] }
  | none => .error ()

/-- Model of OrdersService.markCancellation. -/
def markCancellation (event : String) (data : Option CancObj) (s : ProcState) : ProcState :=
  match data with
  | none => s
  | some d =>
    if d.id = "" then s
    else if event = "created" then
      match s.cancellations.find? (fun c => c.duffelCancellationId = d.id) with
      | some _ =>
        { s with cancellations := s.cancellations.map (fun c =>
          if c.duffelCancellationId = d.id then
            { c with refundAmount := d.refund_amount, refundCurrency := d.refund_currency,
                     refundTo := d.refund_to, expiresAt := d.expires_at,
                     liveMode := d.live_mode }
          else c) }
      | none =>
        { s with cancellations := s.cancellations ++
          [{ duffelCancellationId := d.id, orderDuffelId := d.order_id,
             refundAmount := d.refund_amount, refundCurrency := d.refund_currency,
             refundTo := d.refund_to, expiresAt := d.expires_at,
             confirmedAt := none, liveMode := d.live_mode }] }
    else
      let s1 : ProcState := { s with cancellations := s.cancellations.map (fun c =>
        if c.duffelCancellationId = d.id then
          { c with confirmedAt := some (d.confirmed_at.getD "now") }
        else c) }
      { s1 with orders := updateOrderRows s1.orders d.order_id (fun r =>
        { r with status := some "cancelled", paymentStatus := some "cancelled" }) }

/-- Dispatch by event type (the switch statement of the processor). -/
def dispatchEvent (ev : DuffelEvent) (s : ProcState) : Except Unit ProcState :=
  if ev.type = "order.created" then
    match ev.data with
    | some (.ord o) => if o.id ≠ "" then .ok (upsertOrderMeta o ev.type s) else .ok s
    | _ => .ok s
  else if ev.type = "order.updated" then
    match ev.data with
    | some (.ord o) =>
      if o.id ≠ "" then
        let s1 := upsertOrderMeta o ev.type s
        match o.status with
        | some st =>
          if st = "confirmed" ∨ st = "ticketed" then .ok (enqueuePoll s1 o.id 1) else .ok s1
        | none => .ok s1
      else .ok s
    | _ => .ok s
  else if ev.type = "order.airline_initiated_change_detected" then
    match ev.data with
    | some (.chg oid) =>
      if oid ≠ "" then
        match persistAirlineChange oid s with
        | .ok s1 =>
          .ok { s1 with orders := updateOrderRows s1.orders oid (fun r =>
            { r with status := some "changed" }) }
        | .error e => .error e
      else .ok s
    | _ => .ok s
  else if ev.type = "order_cancellation.created" then
    .ok (markCancellation "created"
      (match ev.data with | some (.canc c) => some c | _ => none) s)
  else if ev.type = "order_cancellation.confirmed" then
    .ok (markCancellation "confirmed"
      (match ev.data with | some (.canc c) => some c | _ => none) s)
  else .ok s

/-- Model of DuffelWebhookProcessor.process: compute the idempotency key,
return success untouched when the key is already recorded, otherwise
dispatch, record the key, and stamp processedAt on the audit row (both
best-effort writes are modelled as succeeding). -/
def processEvent (ev : DuffelEvent) (s : ProcState) : Except Unit (Bool × ProcState) :=
  let key := computeKey ev
  if s.ledger.contains key then .ok (true, s)
  else
    match dispatchEvent ev s with
    | .error e => .error e
    | .ok s1 =>
      .ok (true, { s1 with
        ledger := key :: s1.ledger
        audit := s1.audit.map (fun a => if a.1 = ev.id then (a.1, true) else a) })

/-- C2: the idempotency key is type with idempotency key when present and
event with event id otherwise; a key already in the ledger makes
processing return success with no state mutation; and after a completed
first processing a second delivery of the same event is a success-only
no-op, so the business effect applies exactly once. -/
theorem C2_idempotent_processing (ev : DuffelEvent) (s : ProcState) :
    computeKey ev = (match ev.idempotency_key with
      | some k => ev.type ++ "|" ++ k
      | none => "event|" ++ ev.id) ∧
    (s.ledger.contains (computeKey ev) = true → processEvent ev s = .ok (true, s)) ∧
    (∀ r1 s1, processEvent ev s = .ok (r1, s1) → processEvent ev s1 = .ok (true, s1)) := by
  refine ⟨rfl, ?_, ?_⟩
  · intro h
    simp only [processEvent, h, if_true]
  · intro r1 s1 h
    by_cases hc : s.ledger.contains (computeKey ev) = true
    · simp only [processEvent, hc, if_true, Except.ok.injEq, Prod.mk.injEq] at h
      obtain ⟨-, h2⟩ := h
      subst h2
      simp only [processEvent, hc, if_true]
    · simp only [processEvent] at h
      rw [if_neg hc] at h
      rcases hd : dispatchEvent ev s with e | sd <;> rw [hd] at h
      · exact absurd h (by simp)
      · simp only [Except.ok.injEq, Prod.mk.injEq] at h
        obtain ⟨-, h2⟩ := h
        subst h2
        simp only [processEvent]
        rw [if_pos (by simp)]

/-- Concrete second-delivery witness state and event. -/
def evC2 : DuffelEvent :=
  { id := "evt_1", type := "order.created", idempotency_key := some "idem_1",
    live_mode := false, data := none }

def sC2 : ProcState :=
  { orders := [], users := ["user_1"], ledger := ["order.created|idem_1"],
    audit := [("evt_1", false)], scheduleChanges := [], cancellations := [],
    pollQueue := [] }

theorem C2_idempotent_processing_witness :
    sC2.ledger.contains (computeKey evC2) = true ∧
    processEvent evC2 sC2 = .ok (true, sC2) :=
  ⟨by decide, (C2_idempotent_processing evC2 sC2).2.1 (by decide)⟩




/- ===================== Payment-intent gating (payments.service.ts, createIntentForOrder) ===================== -/

/-- Model of JS String.prototype.toLowerCase on the ASCII range. -/
def jsToLower (s : String) : String := String.mk (s.data.map Char.toLower)

/-- Provider payment_status object. -/
structure PayStatus where
  awaiting_payment : Option Bool
  paid_at : Option String
deriving DecidableEq, Repr

/-- Provider order snapshot as read by createIntentForOrder. -/
structure DuffelOrderPay where
  id : Option String
  total_amount : Option String
  total_currency : Option String
  type : Option String
  payment_status : Option PayStatus
deriving DecidableEq, Repr

/-- The structured 200-body result: ok with an intent id, or ok false
with a machine code and message. -/
inductive PIResult where
  | okIntent (intentId : String)
  | fail (code : String) (message : String)
deriving DecidableEq, Repr

def orderAwaiting (o : DuffelOrderPay) : Bool :=
  (o.payment_status.bind (fun p => p.awaiting_payment)) = some true

def orderAlreadyPaid (o : DuffelOrderPay) : Bool :=
  truthyStr (o.payment_status.bind (fun p => p.paid_at))

def orderIsInstant (o : DuffelOrderPay) : Bool :=
  jsToLower (o.type.getD "") = "instant"

def alreadyPaidOrInstantMsg (o : DuffelOrderPay) : String :=
  "Order is not awaiting payment (type=" ++ o.type.getD "unknown" ++
    ", paid_at=" ++ (o.payment_status.bind (fun p => p.paid_at)).getD "null" ++ ")"

/-- Model of PaymentsService.createIntentForOrder: the fetched order (none
models a missing object), the Stripe create call as an oracle (ok intent
id or thrown message). The second component records whether the
Payment-Provider create call was reached. -/
def createIntentForOrder (order : Option DuffelOrderPay)
    (stripeCreate : Except String String) : PIResult × Bool :=
  match order with
  | none => (.fail "order_not_found" "Duffel order not found or missing totals", false)
  | some o =>
    if truthyStr o.id && truthyStr o.total_amount && truthyStr o.total_currency then
      if !orderAwaiting o || orderAlreadyPaid o || orderIsInstant o then
        (.fail "already_paid_or_instant" (alreadyPaidOrInstantMsg o), false)
      else
        match toMinorUnits (o.total_amount.getD "") (o.total_currency.getD "") with
        | .error _ => (.fail "invalid_totals" "Invalid amount/currency on Duffel order", false)
        | .ok _ =>
          match stripeCreate with
          | .ok intentId => (.okIntent intentId, true)
          | .error m => (.fail "stripe_pi_create_failed" m, true)
    else (.fail "order_not_found" "Duffel order not found or missing totals", false)

/-- C7: the Payment-Provider create call is reached only when the provider
reports the order awaiting payment, with no paid_at stamp, and of
non-instant type; and an order that is already paid or instant-type is
answered by the exact structured policy failure (ok false, code
already_paid_or_instant, the descriptive non-amount message) with the
create call never made. -/
theorem C7_intent_gating (o : DuffelOrderPay) (st : Except String String) :
    ((createIntentForOrder (some o) st).2 = true →
      orderAwaiting o = true ∧ orderAlreadyPaid o = false ∧ orderIsInstant o = false) ∧
    (truthyStr o.id = true → truthyStr o.total_amount = true →
      truthyStr o.total_currency = true →
      (orderAlreadyPaid o = true ∨ orderIsInstant o = true) →
      createIntentForOrder (some o) st =
        (.fail "already_paid_or_instant" (alreadyPaidOrInstantMsg o), false)) := by
  constructor
  · intro h
    simp only [createIntentForOrder] at h
    by_cases hid : (truthyStr o.id && truthyStr o.total_amount && truthyStr o.total_currency) = true
    · rw [if_pos hid] at h
      by_cases hg : (!orderAwaiting o || orderAlreadyPaid o || orderIsInstant o) = true
      · rw [if_pos hg] at h
        simp at h
      · rw [if_neg hg] at h
        simp only [Bool.or_eq_true, Bool.not_eq_true', not_or, Bool.not_eq_true] at hg
        exact ⟨by simpa using hg.1.1, hg.1.2, hg.2⟩
    · rw [if_neg hid] at h
      simp at h
  · intro h1 h2 h3 hpi
    simp only [createIntentForOrder]
    rw [if_pos (by rw [h1, h2, h3]; rfl)]
    rw [if_pos ?_]
    rcases hpi with hp | hi
    · rw [hp]
      simp
    · rw [hi]
      simp

/-- Witness: an instant-type, already-paid order is refused with the exact
policy failure and no Stripe call; the message names the type and the
paid_at stamp, not an amount. -/
theorem C7_intent_gating_witness :
    createIntentForOrder (some
      { id := some "ord_1", total_amount := some "120.00", total_currency := some "EUR",
        type := some "instant",
        payment_status := some { awaiting_payment := some false, paid_at := some "2024-01-01T00:00:00Z" } })
      (.ok "pi_1") =
    (.fail "already_paid_or_instant"
      "Order is not awaiting payment (type=instant, paid_at=2024-01-01T00:00:00Z)", false) := by
  have h := (C7_intent_gating
    { id := some "ord_1", total_amount := some "120.00", total_currency := some "EUR",
      type := some "instant",
      payment_status := some { awaiting_payment := some false, paid_at := some "2024-01-01T00:00:00Z" } }
    (.ok "pi_1")).2 (by decide) (by decide) (by decide) (Or.inl (by decide))
  rw [h]
  rfl

/- ===================== Stripe refund webhook (payments.service.ts, charge.refunded case) ===================== -/

/-- JS a or-else b on an optional string: the left value when truthy (a
present non-empty string), else b. -/
def jsOrStr (a : Option String) (b : String) : String :=
  match a with
  | some s => if s = "" then b else s
  | none => b

/-- The fields of the Stripe charge the refund case reads. -/
structure StripeCharge where
  currency : Option String
  amount_refunded : Option Nat
  payment_intent : Option String
deriving DecidableEq, Repr

/-- The fields of the retrieved payment intent the refund case reads. -/
structure StripePI where
  currency : Option String
  duffel_order_id : Option String
deriving DecidableEq, Repr

/-- Provider order totals fetched for the refund comparison. -/
structure DuffelTotals where
  total_amount : Option String
  total_currency : Option String
deriving DecidableEq, Repr

/-- Booking-provider calls the refund case can make. -/
inductive DuffelCall where
  | cancelQuote (orderId : String) (reason : String)
  | cancelConfirm (cancellationId : String)
deriving DecidableEq, Repr

def refundCurrency (charge : StripeCharge) (pi : StripePI) : String :=
  jsToUpper (jsOrStr charge.currency (jsOrStr pi.currency "eur"))

def orderTotalCur (d : DuffelTotals) : String :=
  jsToUpper (jsOrStr d.total_currency "")

/-- Model of the charge.refunded / refund.updated case of
PaymentsService.handleWebhook from the point where the charge and payment
intent are in hand: resolve the linked order id, compare the refunded
minor amount against the order totals, and either flag the order
partially refunded (no provider action) or drive quote plus confirm and
mark the order refunded. The two Except arguments are the outcomes of the
two provider calls; the result is the updated Order rows and the ordered
provider calls made. -/
def handleChargeRefunded (charge : StripeCharge) (pi : StripePI)
    (dTotals : Option DuffelTotals)
    (quoteRes : Except Unit String) (confirmRes : Except Unit Unit)
    (orders : List OrderRow) : List OrderRow × List DuffelCall :=
  if truthyStr pi.duffel_order_id = true then
    let orderId := pi.duffel_order_id.getD ""
    let currency := refundCurrency charge pi
    let refundedMinor := charge.amount_refunded.getD 0
    let refunded := fromMinorUnits refundedMinor currency
    match dTotals with
    | none => (orders, [])
    | some d =>
      let total := d.total_amount.getD ""
      let totalCur := orderTotalCur d
      if truthyStr d.total_amount = false ∨ totalCur = "" then (orders, [])
      else
        let isFull : Bool :=
          match toMinorUnits refunded currency, toMinorUnits total totalCur with
          | .ok a, .ok b => a == b && currency == totalCur
          | _, _ => false
        if isFull = false then
          (updateOrderRows orders orderId
            (fun r => { r with paymentStatus := some "partially_refunded" }), [])
        else
          match quoteRes with
          | .error _ => (orders, [.cancelQuote orderId "customer_refund"])
          | .ok qid =>
            match confirmRes with
            | .error _ =>
              (orders, [.cancelQuote orderId "customer_refund", .cancelConfirm qid])
            | .ok _ =>
              (updateOrderRows orders orderId
                (fun r => { r with paymentStatus := some "refunded", status := some "refunded" }),
               [.cancelQuote orderId "customer_refund", .cancelConfirm qid])
  else (orders, [])

/-- C3: with a linked order, present totals that parse to tm minor units,
and a refunded amount in the JS exact-integer range, the handler takes
the full-refund path exactly when the refunded currency equals the order
total currency and the refunded minor amount equals tm: then it issues
the cancellation quote immediately followed by confirm and marks the
order refunded; in every other relationship it only flags the order
partially refunded and makes no booking-provider call. -/
theorem C3_full_refund_iff (charge : StripeCharge) (pi : StripePI)
    (d : DuffelTotals) (qid : String) (orders : List OrderRow) (tm : Nat)
    (h1 : truthyStr pi.duffel_order_id = true)
    (h2 : truthyStr d.total_amount = true)
    (h3 : orderTotalCur d ≠ "")
    (h4 : toMinorUnits (d.total_amount.getD "") (orderTotalCur d) = .ok tm)
    (h5 : charge.amount_refunded.getD 0 < 2 ^ 53) :
    ((charge.amount_refunded.getD 0 = tm ∧ refundCurrency charge pi = orderTotalCur d) →
      handleChargeRefunded charge pi (some d) (.ok qid) (.ok ()) orders =
        (updateOrderRows orders (pi.duffel_order_id.getD "")
          (fun r => { r with paymentStatus := some "refunded", status := some "refunded" }),
         [.cancelQuote (pi.duffel_order_id.getD "") "customer_refund", .cancelConfirm qid])) ∧
    (¬(charge.amount_refunded.getD 0 = tm ∧ refundCurrency charge pi = orderTotalCur d) →
      handleChargeRefunded charge pi (some d) (.ok qid) (.ok ()) orders =
        (updateOrderRows orders (pi.duffel_order_id.getD "")
          (fun r => { r with paymentStatus := some "partially_refunded" }), [])) := by
  have hrt : toMinorUnits (fromMinorUnits (charge.amount_refunded.getD 0)
      (refundCurrency charge pi)) (refundCurrency charge pi) =
      .ok (charge.amount_refunded.getD 0) :=
    toMinorUnits_fromMinorUnits _ _ (Nat.lt_trans h5 two_pow_53_lt_bound)
  constructor
  · intro hfull
    simp only [handleChargeRefunded]
    rw [if_pos h1]
    rw [if_neg (by simp [h2, h3])]
    rw [hrt, h4]
    dsimp only
    rw [if_neg (by simp [hfull.1, hfull.2])]
  · intro hnot
    have hc : ((charge.amount_refunded.getD 0 == tm) &&
        (refundCurrency charge pi == orderTotalCur d)) = false := by
      rcases Decidable.not_and_iff_or_not.mp hnot with hne | hne <;> simp [hne]
    simp only [handleChargeRefunded]
    rw [if_pos h1]
    rw [if_neg (by simp [h2, h3])]
    rw [hrt, h4]
    dsimp only
    rw [if_pos hc]

def chargeC3full : StripeCharge :=
  { currency := some "eur", amount_refunded := some 10000, payment_intent := some "pi_9" }

def chargeC3part : StripeCharge :=
  { currency := some "eur", amount_refunded := some 4000, payment_intent := some "pi_9" }

def piC3 : StripePI := { currency := some "eur", duffel_order_id := some "ord_9" }

def dC3 : DuffelTotals := { total_amount := some "100.00", total_currency := some "EUR" }

def rowC3 : OrderRow :=
  { id := "local_9", duffelId := "ord_9", offerId := "off_9", userId := "user_9",
    status := some "confirmed", amount := "100.00", currency := "EUR", owner := none,
    liveMode := false, lastEventType := none, paymentProvider := some "stripe",
    paymentIntentId := some "pi_9", paymentStatus := some "paid", eticketReady := false }

/-- Witness: a 100.00 EUR refund on a 100.00 EUR order drives quote then
confirm and marks the order refunded; a 40.00 EUR refund on the same
order only flags it partially refunded with no provider call. -/
theorem C3_full_refund_iff_witness :
    handleChargeRefunded chargeC3full piC3 (some dC3) (.ok "can_1") (.ok ()) [rowC3] =
      ([{ rowC3 with paymentStatus := some "refunded", status := some "refunded" }],
       [.cancelQuote "ord_9" "customer_refund", .cancelConfirm "can_1"]) ∧
    handleChargeRefunded chargeC3part piC3 (some dC3) (.ok "can_1") (.ok ()) [rowC3] =
      ([{ rowC3 with paymentStatus := some "partially_refunded" }], []) := by
  constructor
  · have h := (C3_full_refund_iff chargeC3full piC3 dC3 "can_1" [rowC3] 10000
      (by decide) (by decide) (by decide) (by decide) (by decide)).1
      ⟨by decide, by decide⟩
    rw [h]
    decide
  · have h := (C3_full_refund_iff chargeC3part piC3 dC3 "can_1" [rowC3] 10000
      (by decide) (by decide) (by decide) (by decide) (by decide)).2
      (by decide)
    rw [h]
    decide

/- ===================== Ticket document persistence (orders.service.ts, persistTicketDocuments) ===================== -/

/-- Decimal string of a natural number (JS template interpolation of a
small integer). -/
def natToStr (n : Nat) : String := String.mk ((natToDecimalDigits n).map digitChar)

/-- The fields of a provider ticket document the persistence path reads. -/
structure TicketDoc where
  type : Option String
  unique_identifier : Option String
  url : Option String
deriving DecidableEq, Repr

/-- A TicketDocument row. -/
structure TicketRow where
  id : String
  orderId : String
  type : String
  uniqueId : String
  url : Option String
deriving DecidableEq, Repr

/-- Database errors the persistence path distinguishes: 42P10 (a unique
constraint named in the query does not exist in the schema) and
P2002 or duplicate-key (a unique constraint is violated). -/
inductive DbErr where
  | undefinedConstraint
  | uniqueViolation
deriving DecidableEq, Repr

/-- Ticket store with its schema mode: hasCompositeUnique models the
presence of UNIQUE(orderId, uniqueId), hasGlobalUnique a residual legacy
UNIQUE(uniqueId); nextId feeds generated primary keys. -/
structure TicketDb where
  orders : List OrderRow
  users : List String
  tickets : List TicketRow
  hasCompositeUnique : Bool
  hasGlobalUnique : Bool
  nextId : Nat
deriving DecidableEq, Repr

def isElectronicTicket (d : TicketDoc) : Bool :=
  jsToLower (d.type.getD "") = "electronic_ticket"

/-- Secure the Order foreign key: find the local row by provider booking
id, else create a stub row (first user, else a fresh system user). -/
def ensureDbOrder (duffelOrderId : String) (db : TicketDb) : String × TicketDb :=
  match findOrder db.orders duffelOrderId with
  | some r => (r.id, db)
  | none =>
    let uid := match db.users with | u :: _ => u | [] => "user:system"
    let users1 := match db.users with | _ :: _ => db.users | [] => ["user:system"]
    let newRow : OrderRow :=
      { id := "ord:" ++ duffelOrderId, duffelId := duffelOrderId, offerId := "unknown",
        userId := uid, status := none, amount := "0", currency := "USD", owner := none,
        liveMode := false, lastEventType := none, paymentProvider := none,
        paymentIntentId := none, paymentStatus := none, eticketReady := false }
    ("ord:" ++ duffelOrderId, { db with orders := db.orders ++ [newRow], users := users1 })

/-- Upsert addressed by the composite key orderId_uniqueId: 42P10 when
the schema lacks the composite constraint; otherwise update the matching
row or create one (colliding with a residual global unique on create). -/
def upsertTicketComposite (orderId uniqueId ty : String) (url : Option String)
    (db : TicketDb) : Except DbErr TicketDb :=
  if db.hasCompositeUnique = false then .error .undefinedConstraint
  else
    match db.tickets.find? (fun t => t.orderId = orderId ∧ t.uniqueId = uniqueId) with
    | some _ =>
      .ok { db with tickets := db.tickets.map (fun t =>
        if t.orderId = orderId ∧ t.uniqueId = uniqueId then
          { t with type := ty, url := url } else t) }
    | none =>
      if db.hasGlobalUnique ∧ db.tickets.any (fun t => t.uniqueId = uniqueId) then
        .error .uniqueViolation
      else
        .ok { db with
          tickets := db.tickets ++
            [{ id := "t" ++ natToStr db.nextId, orderId := orderId, type := ty,
               uniqueId := uniqueId, url := url }]
          nextId := db.nextId + 1 }

/-- Upsert addressed by primary key: update the row when present (its
orderId is kept), else create; either write fails with a unique violation
when an enforced constraint would be broken by the written uniqueId. -/
def upsertTicketById (i orderId uniqueId ty : String) (url : Option String)
    (db : TicketDb) : Except DbErr TicketDb :=
  match db.tickets.find? (fun t => t.id = i) with
  | some t0 =>
    if (db.hasGlobalUnique ∧ db.tickets.any (fun t => t.id ≠ i ∧ t.uniqueId = uniqueId)) ∨
        (db.hasCompositeUnique ∧ db.tickets.any (fun t =>
          t.id ≠ i ∧ t.orderId = t0.orderId ∧ t.uniqueId = uniqueId)) then
      .error .uniqueViolation
    else
      .ok { db with tickets := db.tickets.map (fun t =>
        if t.id = i then { t with type := ty, url := url, uniqueId := uniqueId } else t) }
  | none =>
    if (db.hasGlobalUnique ∧ db.tickets.any (fun t => t.uniqueId = uniqueId)) ∨
        (db.hasCompositeUnique ∧ db.tickets.any (fun t =>
          t.orderId = orderId ∧ t.uniqueId = uniqueId)) then
      .error .uniqueViolation
    else
      .ok { db with tickets := db.tickets ++
        [{ id := i, orderId := orderId, type := ty, uniqueId := uniqueId, url := url }] }

/-- One document of the persistence loop: composite upsert first; on
42P10 fall back to the order-scoped synthetic primary key; on a residual
unique violation there retry with the provider-booking-id-namespaced
identifier; any other error propagates. -/
def persistOneDoc (duffelOrderId dbOrderId : String) (i : Nat) (d : TicketDoc)
    (db : TicketDb) : Except DbErr TicketDb :=
  let uniqueIdRaw :=
    if truthyStr d.unique_identifier then d.unique_identifier.getD ""
    else duffelOrderId ++ ":" ++ natToStr (i + 1)
  let uniqueId := uniqueIdRaw
  let ty := d.type.getD "electronic_ticket"
  match upsertTicketComposite dbOrderId uniqueId ty d.url db with
  | .ok db1 => .ok db1
  | .error .uniqueViolation => .error .uniqueViolation
  | .error .undefinedConstraint =>
    let syntheticId := dbOrderId ++ ":" ++ uniqueIdRaw
    match upsertTicketById syntheticId dbOrderId uniqueId ty d.url db with
    | .ok db1 => .ok db1
    | .error .undefinedConstraint => .error .undefinedConstraint
    | .error .uniqueViolation =>
      let namespacedUniqueId := duffelOrderId ++ ":" ++ uniqueIdRaw
      upsertTicketById syntheticId dbOrderId namespacedUniqueId ty d.url db

def persistTicketLoop (duffelOrderId dbOrderId : String) (docs : List TicketDoc)
    (i : Nat) (db : TicketDb) : Except DbErr (Nat × TicketDb) :=
  match docs with
  | [] => .ok (0, db)
  | d :: rest =>
    match persistOneDoc duffelOrderId dbOrderId i d db with
    | .error e => .error e
    | .ok db1 =>
      match persistTicketLoop duffelOrderId dbOrderId rest (i + 1) db1 with
      | .error e => .error e
      | .ok (n, db2) => .ok (n + 1, db2)

/-- Model of OrdersService.persistTicketDocuments: filter electronic
tickets, secure the Order foreign key, persist each document through the
upsert fallback chain, and on any saved document mark the order confirmed
and eticketReady. Returns the saved count. -/
def persistTicketDocuments (duffelOrderId : String) (docs : List TicketDoc)
    (db : TicketDb) : Except DbErr (Nat × TicketDb) :=
  let eDocs := docs.filter isElectronicTicket
  if eDocs.isEmpty then .ok (0, db)
  else
    let p := ensureDbOrder duffelOrderId db
    match persistTicketLoop duffelOrderId p.1 eDocs 0 p.2 with
    | .error e => .error e
    | .ok (saved, db2) =>
      if saved > 0 then
        .ok (saved, { db2 with orders := (updateOrderRows db2.orders duffelOrderId
          (fun r => { r with status := some "confirmed", eticketReady := true })) })
      else .ok (saved, db2)

/-- Model of OrdersService.markEticketReady. -/
def markEticketReady (duffelOrderId : String) (status : Option String)
    (db : TicketDb) : TicketDb :=
  { db with orders := updateOrderRows db.orders duffelOrderId (fun r =>
    { r with eticketReady := true
             status := if truthyStr status then status else r.status }) }

/- ===================== C6: ticket identity scoped to (orderId, uniqueId) ===================== -/

def docU (u : String) : TicketDoc :=
  { type := some "electronic_ticket", unique_identifier := some u, url := none }

def rowA6 : OrderRow :=
  { id := "la", duffelId := "ordA", offerId := "off_A", userId := "user_1",
    status := some "confirmed", amount := "10.00", currency := "EUR", owner := none,
    liveMode := false, lastEventType := none, paymentProvider := none,
    paymentIntentId := none, paymentStatus := none, eticketReady := false }

def rowB6 : OrderRow :=
  { id := "lb", duffelId := "ordB", offerId := "off_B", userId := "user_1",
    status := some "confirmed", amount := "10.00", currency := "EUR", owner := none,
    liveMode := false, lastEventType := none, paymentProvider := none,
    paymentIntentId := none, paymentStatus := none, eticketReady := false }

/-- Store whose schema carries the composite UNIQUE(orderId, uniqueId)
and no residual global constraint. -/
def dbModern : TicketDb :=
  { orders := [rowA6, rowB6], users := ["user_1"], tickets := [],
    hasCompositeUnique := true, hasGlobalUnique := false, nextId := 0 }

/-- Store on the legacy schema: no composite constraint yet, residual
global UNIQUE(uniqueId) still present. -/
def dbLegacy : TicketDb :=
  { orders := [rowA6, rowB6], users := ["user_1"], tickets := [],
    hasCompositeUnique := false, hasGlobalUnique := true, nextId := 0 }

/-- Persist the same provider identifier for order ordA and then for
order ordB. -/
def persistTwice (db : TicketDb) (u : String) : Except DbErr TicketDb :=
  match persistTicketDocuments "ordA" [docU u] db with
  | .error e => .error e
  | .ok (_, db1) =>
    match persistTicketDocuments "ordB" [docU u] db1 with
    | .error e => .error e
    | .ok (_, db2) => .ok db2

def ticketKeys (db : TicketDb) : List (String × String × String) :=
  db.tickets.map (fun t => (t.id, t.orderId, t.uniqueId))

/-- C6: for every non-empty provider unique identifier u delivered for
two different orders, both schema modes store two distinct rows, each
scoped to its own order, with no document dropped or overwritten: under
the composite constraint the two rows share uniqueId u and differ in
orderId, and on the legacy schema the engine falls back to the
order-scoped synthetic primary key and then, on the residual global
collision, to the provider-booking-id-namespaced identifier. -/
theorem C6_ticket_scoping (u : String) (hu : u ≠ "") :
    (persistTwice dbModern u).map ticketKeys =
      .ok [("t" ++ natToStr 0, "la", u), ("t" ++ natToStr 1, "lb", u)] ∧
    (persistTwice dbLegacy u).map ticketKeys =
      .ok [("la" ++ ":" ++ u, "la", u), ("lb" ++ ":" ++ u, "lb", "ordB" ++ ":" ++ u)] := by
  have hne1 : ¬(("la:" ++ u : String) = "lb:" ++ u) := by
    intro h
    have h2 : ("la:" : String).data ++ u.data = ("lb:" : String).data ++ u.data := by
      rw [← String.data_append, ← String.data_append, h]
    have h3 := List.append_cancel_right h2
    simp at h3
  have hne2 : ¬(u = "ordB:" ++ u) := by
    intro h
    have h2 := congrArg String.length h
    rw [String.length_append] at h2
    have h4 : ("ordB:" : String).length = 5 := rfl
    rw [h4] at h2
    omega
  constructor
  · simp [persistTwice, persistTicketDocuments, persistTicketLoop, persistOneDoc,
      upsertTicketComposite, upsertTicketById, ensureDbOrder, findOrder, updateOrderRows,
      isElectronicTicket, ticketKeys, docU, dbModern, rowA6, rowB6, truthyStr, hu,
      jsToLower, Except.map]
  · simp [persistTwice, persistTicketDocuments, persistTicketLoop, persistOneDoc,
      upsertTicketComposite, upsertTicketById, ensureDbOrder, findOrder, updateOrderRows,
      isElectronicTicket, ticketKeys, docU, dbLegacy, rowA6, rowB6, truthyStr, hu,
      hne1, hne2, jsToLower, Except.map]

/-- Witness: the provider-supplied sandbox identifier 1 on two different
orders yields two distinct scoped rows in both schema modes. -/
theorem C6_ticket_scoping_witness :
    ("1" : String) ≠ "" ∧
    (persistTwice dbModern "1").map ticketKeys =
      .ok [("t" ++ natToStr 0, "la", "1"), ("t" ++ natToStr 1, "lb", "1")] ∧
    (persistTwice dbLegacy "1").map ticketKeys =
      .ok [("la" ++ ":" ++ "1", "la", "1"), ("lb" ++ ":" ++ "1", "lb", "ordB" ++ ":" ++ "1")] :=
  ⟨by decide, (C6_ticket_scoping "1" (by decide)).1, (C6_ticket_scoping "1" (by decide)).2⟩

/- ===================== Eticket poll processor (eticket-poll.processor.ts) ===================== -/

/-- Math.round of the fraction n over d (round half up on nonnegative
values), as an integer computation. -/
def jsRoundDiv (n d : Nat) : Nat := (2 * n + d) / (2 * d)

/-- Requeue delay of the poller: min(60000, Math.round(5000 * 1.6 ^
(attempt - 1))), with 1.6 as the exact ratio 8 / 5; the rounded values
coincide with the float evaluation for every attempt up to the maximum. -/
def pollDelay (a : Nat) : Nat :=
  min 60000 (jsRoundDiv (5000 * 8 ^ (a - 1)) (5 ^ (a - 1)))

/-- The delay formula as the specification words it: the backoff rational
rounded half-up via the floor of the value plus one half. -/
def specPollDelay (a : Nat) : Nat :=
  min 60000 ⌊(5000 : ℚ) * (8 / 5) ^ (a - 1) + 1 / 2⌋₊

theorem jsRoundDiv_eq_floor (n d : Nat) (hd : 0 < d) :
    jsRoundDiv n d = ⌊(n : ℚ) / d + 1 / 2⌋₊ := by
  rw [jsRoundDiv]
  have h : ((n : ℚ) / d + 1 / 2) = ((2 * n + d : ℕ) : ℚ) / ((2 * d : ℕ) : ℚ) := by
    have hd0 : (d : ℚ) ≠ 0 := by exact_mod_cast hd.ne'
    push_cast
    field_simp
    ring
  rw [h, Nat.floor_div_nat, Nat.floor_natCast]

theorem pollDelay_eq_spec (a : Nat) : pollDelay a = specPollDelay a := by
  rw [pollDelay, specPollDelay,
    jsRoundDiv_eq_floor _ _ (Nat.pos_pow_of_pos _ (by norm_num))]
  congr 2
  push_cast
  rw [div_pow]
  have h5 : ((5 : ℚ) ^ (a - 1)) ≠ 0 := by positivity
  field_simp

/-- Model of EticketPollProcessor.process: fetch result (none models a
failed provider fetch, yielding no documents), persist the documents, and
either mark the order ready and stop, give up at the attempt cap, or
requeue once with jobId poll:orderId, the incremented attempt, and the
backoff delay. -/
def pollProcess (orderId : String) (attempt : Nat) (fetched : Option (List TicketDoc))
    (fetchedStatus : Option String) (db : TicketDb) :
    Except DbErr (TicketDb × Option (String × Nat × Nat)) :=
  let docs := fetched.getD []
  match persistTicketDocuments orderId docs db with
  | .error e => .error e
  | .ok (saved, db1) =>
    if saved > 0 then
      .ok (markEticketReady orderId (some (fetchedStatus.getD "confirmed")) db1, none)
    else
      if 15 ≤ attempt then .ok (db1, none)
      else .ok (db1, some ("poll:" ++ orderId, attempt + 1, pollDelay attempt))

/-- Number of processed attempts in a chain in which the provider never
returns documents, starting at attempt a, with explicit fuel. -/
def pollChainCount (fuel : Nat) (a : Nat) (db : TicketDb) : Nat :=
  match fuel with
  | 0 => 0
  | fuel' + 1 =>
    match pollProcess "ord" a (some []) none db with
    | .error _ => 1
    | .ok (_, none) => 1
    | .ok (db1, some p) => 1 + pollChainCount fuel' p.2.1 db1

/-- C5: when persisting the fetched documents saves at least one ticket,
the job marks the order eticketReady and stops without requeueing; when
nothing is saved and the attempt is below 15, exactly one follow-up job
is enqueued with attempt a plus one and delay min(60000, round(5000
times 1.6 to the (a minus 1))), the code delay agreeing with the
specification rounding; when nothing is saved at attempt 15 or beyond the
job stops without error and without requeueing, so a chain started at
attempt 1 processes exactly 15 attempts. -/
theorem C5_poll_backoff (orderId : String) (a saved : Nat) (st : Option String)
    (db db1 : TicketDb) (docs : List TicketDoc) :
    (persistTicketDocuments orderId docs db = .ok (saved, db1) → 0 < saved →
      pollProcess orderId a (some docs) st db =
        .ok (markEticketReady orderId (some (st.getD "confirmed")) db1, none)) ∧
    (persistTicketDocuments orderId docs db = .ok (0, db1) → a < 15 →
      pollProcess orderId a (some docs) st db =
        .ok (db1, some ("poll:" ++ orderId, a + 1, pollDelay a))) ∧
    (persistTicketDocuments orderId docs db = .ok (0, db1) → 15 ≤ a →
      pollProcess orderId a (some docs) st db = .ok (db1, none)) ∧
    pollDelay a = specPollDelay a ∧
    pollChainCount 20 1 db = 15 := by
  refine ⟨?_, ?_, ?_, pollDelay_eq_spec a, ?_⟩
  · intro h hs
    simp only [pollProcess, Option.getD_some]
    rw [h]
    dsimp only
    rw [if_pos hs]
  · intro h ha
    simp only [pollProcess, Option.getD_some]
    rw [h]
    dsimp only
    rw [if_neg (by omega), if_neg (by omega)]
  · intro h ha
    simp only [pollProcess, Option.getD_some]
    rw [h]
    dsimp only
    rw [if_neg (by omega), if_pos ha]
  · simp [pollChainCount, pollProcess, persistTicketDocuments, pollDelay]

/-- Resulting store after one saved ticket for order ordA. -/
def dbC5 : TicketDb :=
  { orders := [{ rowA6 with status := some "confirmed", eticketReady := true }, rowB6],
    users := ["user_1"],
    tickets := [{ id := "t" ++ natToStr 0, orderId := "la", type := "electronic_ticket",
                  uniqueId := "TKT1", url := none }],
    hasCompositeUnique := true, hasGlobalUnique := false, nextId := 1 }

/-- Witness: at attempt 3 with no documents the job requeues once with
attempt 4 and delay 12800 ms; with one saved document at attempt 15 it
marks the order ready and stops; with none at attempt 15 it gives up
without requeueing. -/
theorem C5_poll_backoff_witness :
    pollProcess "ordA" 3 (some []) none dbModern =
      .ok (dbModern, some ("poll:ordA", 4, 12800)) ∧
    pollProcess "ordA" 15 (some [docU "TKT1"]) none dbModern =
      .ok (markEticketReady "ordA" (some "confirmed") dbC5, none) ∧
    pollProcess "ordA" 15 (some []) none dbModern = .ok (dbModern, none) := by
  refine ⟨?_, ?_, ?_⟩
  · have h := (C5_poll_backoff "ordA" 3 0 none dbModern dbModern []).2.1 rfl (by decide)
    rw [h]
    decide
  · exact (C5_poll_backoff "ordA" 15 1 none dbModern dbC5 [docU "TKT1"]).1 (by decide) (by decide)
  · exact (C5_poll_backoff "ordA" 15 0 none dbModern dbModern []).2.2.1 rfl (by decide)
